import Mathlib

/-!
# Snake game engine (`src/snake.cpp`)

A shallow embedding of the game engine of `snake.cpp` (the non-Windows build):
the board sizing policy (`updateBoardDimensions`), the session reset (`reset`),
food placement (`spawnFood`), the tick (`moveSnake`), the key handling
(`processInput`) and one iteration of the play loop of `run`.

Conventions of the embedding.

* C++ `int` values are embedded as `Int`.  Signed overflow is undefined
  behaviour in the source; every quantity of the engine stays far away from the
  32 bit range on the states the loop can produce (coordinates are bounded by
  the board, the score by the number of cells), so no wrap-around is modelled.
* `std::deque<Point>` is a `List Point`, head of the snake first.
* The process-global `rand()` is an explicit stream `rnd : Nat → Nat` of the
  values it returns, together with the number of calls made so far
  (`Game.randCalls`).
* The `do … while` loop of `spawnFood` may run forever, so it carries a fuel
  argument: one unit of fuel is one execution of the loop body.
* `snake.front()` on an empty deque is undefined behaviour; the model reports
  it as `Fault.emptySnake`.
* The keyboard is the list of bytes pending at the moment of the poll.
-/

namespace Snake

/-! ## Constants -/

/-- Source constant `INITIAL_SPEED` (milliseconds per frame). -/
abbrev INITIAL_SPEED : Int := 150
/-- Source constant `SPEED_INCREMENT`. -/
abbrev SPEED_INCREMENT : Int := 5
/-- Source constant `DEFAULT_WIDTH`. -/
abbrev DEFAULT_WIDTH : Int := 40
/-- Source constant `DEFAULT_HEIGHT`. -/
abbrev DEFAULT_HEIGHT : Int := 20
/-- Source constant `MIN_WIDTH`. -/
abbrev MIN_WIDTH : Int := 12
/-- Source constant `MIN_HEIGHT`. -/
abbrev MIN_HEIGHT : Int := 8

/-! ## Data model -/

/-- Source `struct Point`: integer coordinates, equality by component. -/
structure Point where
  x : Int
  y : Int
deriving DecidableEq, Repr

/-- Source `enum Direction`. -/
inductive Direction where
  | UP
  | DOWN
  | LEFT
  | RIGHT
  | NONE
deriving DecidableEq, Repr

/-- The data members of `class SnakeGame` (the keyboard handle apart), plus the
position reached in the stream of `rand()` results. -/
structure Game where
  snake : List Point
  food : Point
  direction : Direction
  nextDirection : Direction
  gameOver : Bool
  paused : Bool
  score : Int
  speed : Int
  boardWidth : Int
  boardHeight : Int
  terminalWidth : Int
  terminalHeight : Int
  sizeWarning : Bool
  sizeWarningMessage : String
  randCalls : Nat
deriving DecidableEq, Repr

/-- The two ways a call can fail to produce a state: undefined behaviour of
`snake.front()` on an empty deque, and a food loop that is still running when
the fuel is used up. -/
inductive Fault where
  | emptySnake
  | outOfFuel
deriving DecidableEq, Repr

/-! ## Food placement: `SnakeGame::spawnFood` -/

/-- The cell drawn by one execution of the loop body:
`food.x = rand() % boardWidth; food.y = rand() % boardHeight;`. -/
def drawCell (rnd : Nat → Nat) (s : Game) : Point :=
  { x := Int.tmod (rnd s.randCalls : Int) s.boardWidth
    y := Int.tmod (rnd (s.randCalls + 1) : Int) s.boardHeight }

/-- The `do … while (!validPosition)` loop of `spawnFood`. -/
def spawnFoodLoop (rnd : Nat → Nat) : Nat → Game → Except Fault Game
  | 0, _ => Except.error Fault.outOfFuel
  | fuel + 1, s =>
    let s1 : Game := { s with food := drawCell rnd s, randCalls := s.randCalls + 2 }
    if s1.food ∈ s1.snake then spawnFoodLoop rnd fuel s1 else Except.ok s1

/-- Source `SnakeGame::spawnFood`. -/
def spawnFood (rnd : Nat → Nat) (fuel : Nat) (s : Game) : Except Fault Game :=
  if (s.snake.length : Int) ≥ s.boardWidth * s.boardHeight then
    Except.ok { s with gameOver := true }
  else
    spawnFoodLoop rnd fuel s

/-! ## The tick: `SnakeGame::moveSnake` -/

/-- The direction update at the top of `moveSnake` (no 180 degree turns). -/
def commitDirection (direction nextDirection : Direction) : Direction :=
  if (direction = Direction.UP ∧ nextDirection ≠ Direction.DOWN) ∨
     (direction = Direction.DOWN ∧ nextDirection ≠ Direction.UP) ∨
     (direction = Direction.LEFT ∧ nextDirection ≠ Direction.RIGHT) ∨
     (direction = Direction.RIGHT ∧ nextDirection ≠ Direction.LEFT) then
    nextDirection
  else
    direction

/-- The `switch (direction)` of `moveSnake`: the new head, or `none` in the
`case NONE: return;` branch. -/
def projectHead (d : Direction) (head : Point) : Option Point :=
  match d with
  | Direction.UP => some { head with y := head.y - 1 }
  | Direction.DOWN => some { head with y := head.y + 1 }
  | Direction.LEFT => some { head with x := head.x - 1 }
  | Direction.RIGHT => some { head with x := head.x + 1 }
  | Direction.NONE => none

/-- The wall test of `moveSnake`. -/
def hitsWall (s : Game) (newHead : Point) : Prop :=
  newHead.x < 0 ∨ newHead.x ≥ s.boardWidth ∨ newHead.y < 0 ∨ newHead.y ≥ s.boardHeight

instance (s : Game) (p : Point) : Decidable (hitsWall s p) := by
  unfold hitsWall; exact inferInstance

/-- Source `SnakeGame::moveSnake`. -/
def moveSnake (rnd : Nat → Nat) (fuel : Nat) (s : Game) : Except Fault Game :=
  let s1 : Game := { s with direction := commitDirection s.direction s.nextDirection }
  match s1.snake with
  | [] => Except.error Fault.emptySnake
  | head :: _ =>
    match projectHead s1.direction head with
    | none => Except.ok s1
    | some newHead =>
      if hitsWall s1 newHead then
        Except.ok { s1 with gameOver := true }
      else if newHead ∈ s1.snake then
        Except.ok { s1 with gameOver := true }
      else
        let s2 : Game := { s1 with snake := newHead :: s1.snake }
        if newHead = s2.food then
          let s3 : Game := { s2 with score := s2.score + 1 }
          let s4 : Game :=
            { s3 with speed := max 50 (INITIAL_SPEED - s3.score * SPEED_INCREMENT) }
          spawnFood rnd fuel s4
        else
          Except.ok { s2 with snake := s2.snake.dropLast }

/-! ## Board sizing: `SnakeGame::updateBoardDimensions` -/

/-- The long warning text built with `std::ostringstream`. -/
def longWarning (boardWidth boardHeight : Int) : String :=
  "Arena scaled to " ++ toString boardWidth ++ "x" ++ toString boardHeight ++
    " (ideal " ++ toString DEFAULT_WIDTH ++ "x" ++ toString DEFAULT_HEIGHT ++ ")"

/-- The short warning text used when the long one does not fit. -/
def shortWarning (boardWidth boardHeight : Int) : String :=
  "Arena " ++ toString boardWidth ++ "x" ++ toString boardHeight

/-- Source `SnakeGame::updateBoardDimensions` (non-Windows branch).  The
argument `query` is the outcome of `ioctl(STDOUT_FILENO, TIOCGWINSZ, &ws)`:
`some (ws_col, ws_row)` on success, `none` on failure. -/
def updateBoardDimensions (query : Option (Int × Int)) (s : Game) : Game :=
  let terminalWidth : Int :=
    match query with
    | some (cols, _) => cols
    | none => DEFAULT_WIDTH + 4
  let terminalHeight : Int :=
    match query with
    | some (_, rows) => rows
    | none => DEFAULT_HEIGHT + 8
  let horizontalPadding : Int := 4
  let verticalPadding : Int := 9
  let availableWidth0 : Int :=
    if terminalWidth > 0 then terminalWidth - horizontalPadding else DEFAULT_WIDTH
  let availableHeight0 : Int :=
    if terminalHeight > 0 then terminalHeight - verticalPadding else DEFAULT_HEIGHT
  let availableWidth : Int := if availableWidth0 ≤ 0 then DEFAULT_WIDTH else availableWidth0
  let availableHeight : Int := if availableHeight0 ≤ 0 then DEFAULT_HEIGHT else availableHeight0
  let newBoardWidth0 : Int := min DEFAULT_WIDTH availableWidth
  let newBoardHeight0 : Int := min DEFAULT_HEIGHT availableHeight
  let newBoardWidth1 : Int :=
    if availableWidth < 5 then max availableWidth 1
    else if newBoardWidth0 < MIN_WIDTH ∧ availableWidth ≥ MIN_WIDTH then MIN_WIDTH
    else newBoardWidth0
  let newBoardHeight1 : Int :=
    if availableHeight < 5 then max availableHeight 1
    else if newBoardHeight0 < MIN_HEIGHT ∧ availableHeight ≥ MIN_HEIGHT then MIN_HEIGHT
    else newBoardHeight0
  let newBoardWidth : Int := max newBoardWidth1 1
  let newBoardHeight : Int := max newBoardHeight1 1
  let widthTrimmed : Bool := decide (newBoardWidth < DEFAULT_WIDTH)
  let heightTrimmed : Bool := decide (newBoardHeight < DEFAULT_HEIGHT)
  let sizeWarning : Bool := widthTrimmed || heightTrimmed
  let maxHudWidth : Int := newBoardWidth + 4
  let sizeWarningMessage : String :=
    if sizeWarning then
      if ((longWarning newBoardWidth newBoardHeight).length : Int) > maxHudWidth then
        shortWarning newBoardWidth newBoardHeight
      else longWarning newBoardWidth newBoardHeight
    else ""
  { s with
    terminalWidth := terminalWidth
    terminalHeight := terminalHeight
    boardWidth := newBoardWidth
    boardHeight := newBoardHeight
    sizeWarning := sizeWarning
    sizeWarningMessage := sizeWarningMessage }

/-! ## Session start: `SnakeGame::reset` -/

/-- The initial snake built by `reset` on a board of the given size. -/
def initialSnake (boardWidth boardHeight : Int) : List Point :=
  let centerX : Int := Int.tdiv boardWidth 2
  let centerY : Int := Int.tdiv boardHeight 2
  [{ x := centerX, y := centerY }] ++
    (if boardWidth > 1 then [{ x := max 0 (centerX - 1), y := centerY }] else []) ++
    (if boardWidth > 2 then [{ x := max 0 (centerX - 2), y := centerY }] else [])

/-- Source `SnakeGame::reset`.  (Draining the keyboard buffer does not touch
the game state.) -/
def reset (query : Option (Int × Int)) (rnd : Nat → Nat) (fuel : Nat) (s : Game) :
    Except Fault Game :=
  let s1 : Game := updateBoardDimensions query s
  let s2 : Game :=
    { s1 with
      snake := initialSnake s1.boardWidth s1.boardHeight
      direction := Direction.NONE
      nextDirection := Direction.NONE
      gameOver := false
      paused := false
      score := 0
      speed := INITIAL_SPEED }
  spawnFood rnd fuel s2

/-! ## Keyboard: `SnakeGame::processInput` -/

/-- The byte `27` that starts an arrow-key sequence. -/
def ESC : Char := Char.ofNat 27

/-- The inner `switch` that turns the last byte of an arrow sequence into a
letter key. -/
def arrowLetter (key : Char) : Char :=
  if key = 'A' then 'w'
  else if key = 'B' then 's'
  else if key = 'C' then 'd'
  else if key = 'D' then 'a'
  else key

/-- The reading part of `processInput`: `none` when `kbhit()` is false, else
the key to process (after escape decoding) and the bytes left pending. -/
def pollKey : List Char → Option (Char × List Char)
  | [] => none
  | key :: rest =>
    if key = ESC then
      match rest with
      | [] => some (key, [])
      | second :: rest2 =>
        if second = '[' then
          match rest2 with
          | [] => some (key, [])
          | third :: rest3 => some (arrowLetter third, rest3)
        else some (key, rest2)
    else some (key, rest)

/-- The `switch (key)` of `processInput`. -/
def applyKey (key : Char) (s : Game) : Game :=
  if key = 'w' ∨ key = 'W' then
    if s.direction = Direction.NONE ∨ s.direction ≠ Direction.DOWN then
      { s with
        nextDirection := Direction.UP
        direction := if s.direction = Direction.NONE then Direction.UP else s.direction }
    else s
  else if key = 's' ∨ key = 'S' then
    if s.direction = Direction.NONE ∨ s.direction ≠ Direction.UP then
      { s with
        nextDirection := Direction.DOWN
        direction := if s.direction = Direction.NONE then Direction.DOWN else s.direction }
    else s
  else if key = 'a' ∨ key = 'A' then
    if s.direction = Direction.NONE ∨ s.direction ≠ Direction.RIGHT then
      { s with
        nextDirection := Direction.LEFT
        direction := if s.direction = Direction.NONE then Direction.LEFT else s.direction }
    else s
  else if key = 'd' ∨ key = 'D' then
    if s.direction = Direction.NONE ∨ s.direction ≠ Direction.LEFT then
      { s with
        nextDirection := Direction.RIGHT
        direction := if s.direction = Direction.NONE then Direction.RIGHT else s.direction }
    else s
  else if key = ' ' then
    { s with paused := !s.paused }
  else if key = 'q' ∨ key = 'Q' then
    { s with gameOver := true }
  else s

/-- Source `SnakeGame::processInput`.  The argument `keyboard` is `none` for a
null `keyboard` pointer and otherwise the bytes pending on standard input. -/
def processInput (keyboard : Option (List Char)) (s : Game) : Game :=
  match keyboard with
  | none => s
  | some pending =>
    match pollKey pending with
    | none => s
    | some (key, _) => applyKey key s

/-! ## The play loop of `SnakeGame::run` -/

/-- One iteration of `while (!gameOver)`: `processInput()`, then `moveSnake()`
unless paused.  (Rendering and sleeping do not touch the game state.) -/
def loopIteration (keyboard : Option (List Char)) (rnd : Nat → Nat) (fuel : Nat)
    (s : Game) : Except Fault Game :=
  let s1 : Game := processInput keyboard s
  if s1.paused then Except.ok s1 else moveSnake rnd fuel s1

/-- The states of a play session: the state `reset()` returns (from whatever
state the object was in, for any outcome of the terminal-size query), and the
states the iterations of `while (!gameOver)` produce from it, for any pending
keyboard bytes. -/
inductive Reachable (rnd : Nat → Nat) : Game → Prop where
  | start (query : Option (Int × Int)) (fuel : Nat) (s0 s : Game) :
      reset query rnd fuel s0 = Except.ok s → Reachable rnd s
  | iterate (keyboard : Option (List Char)) (fuel : Nat) (s s' : Game) :
      Reachable rnd s → s.gameOver = false →
      loopIteration keyboard rnd fuel s = Except.ok s' → Reachable rnd s'

/-! ## Derived notions used in the statements -/

/-- The coordinate change the `switch (direction)` of `moveSnake` applies to
the head: `newHead.y--`, `newHead.y++`, `newHead.x--`, `newHead.x++`. -/
def delta : Direction → Int × Int
  | Direction.UP => (0, -1)
  | Direction.DOWN => (0, 1)
  | Direction.LEFT => (-1, 0)
  | Direction.RIGHT => (1, 0)
  | Direction.NONE => (0, 0)

/-- The point one step away from `p` in direction `d`. -/
def shift (p : Point) (d : Direction) : Point :=
  { x := p.x + (delta d).1, y := p.y + (delta d).2 }

/-- The direction the guard of `moveSnake` pairs with `d`: `UP` with `DOWN`,
`LEFT` with `RIGHT`. -/
def opposite : Direction → Direction
  | Direction.UP => Direction.DOWN
  | Direction.DOWN => Direction.UP
  | Direction.LEFT => Direction.RIGHT
  | Direction.RIGHT => Direction.LEFT
  | Direction.NONE => Direction.NONE

/-- The cell the `k`-th execution (counted from 0) of the loop body of
`spawnFood` draws when the loop is entered in state `s`. -/
def cellAt (rnd : Nat → Nat) (s : Game) (k : Nat) : Point :=
  drawCell rnd { s with randCalls := s.randCalls + 2 * k }

/-- The state the constructor `SnakeGame()` builds (the members it leaves
uninitialised are given the value zero). -/
def newGame : Game :=
  { snake := []
    food := { x := 0, y := 0 }
    direction := Direction.NONE
    nextDirection := Direction.NONE
    gameOver := false
    paused := false
    score := 0
    speed := INITIAL_SPEED
    boardWidth := DEFAULT_WIDTH
    boardHeight := DEFAULT_HEIGHT
    terminalWidth := 0
    terminalHeight := 0
    sizeWarning := false
    sizeWarningMessage := ""
    randCalls := 0 }

/-- A random source that returns 0, 1, 2, … on successive calls. -/
def countingRnd : Nat → Nat := fun n => n

/-- The scenario of the specification: board 10x10, snake of length 3 with
head (5,5) moving right, food at (6,5). -/
def scenarioEat : Game :=
  { newGame with
    snake := [{ x := 5, y := 5 }, { x := 4, y := 5 }, { x := 3, y := 5 }]
    food := { x := 6, y := 5 }
    direction := Direction.RIGHT
    nextDirection := Direction.RIGHT
    boardWidth := 10
    boardHeight := 10 }

/-- A snake on the 10x10 board whose head (9,5) is next to the right wall and
which moves right. -/
def scenarioWall : Game :=
  { scenarioEat with
    snake := [{ x := 9, y := 5 }, { x := 8, y := 5 }, { x := 7, y := 5 }]
    food := { x := 2, y := 2 } }

/-- A snake of four segments coiled in a 2x2 square on the 10x10 board, turning
left onto its own last segment. -/
def scenarioCoil : Game :=
  { scenarioEat with
    snake := [{ x := 5, y := 5 }, { x := 5, y := 6 }, { x := 4, y := 6 }, { x := 4, y := 5 }]
    food := { x := 2, y := 2 }
    direction := Direction.UP
    nextDirection := Direction.LEFT }

/-- The 10x10 scenario with the food out of the way and a queued turn to the
left while the snake moves right. -/
def scenarioReverse : Game :=
  { scenarioEat with
    food := { x := 2, y := 2 }
    nextDirection := Direction.LEFT }

/-- The cells of a 5x5 board in serpentine order: a snake of 25 segments that
fills the board. -/
def serpentine5 : List Point :=
  (List.range 25).map fun i =>
    { x := if (i / 5) % 2 = 0 then ((i % 5 : Nat) : Int) else 4 - ((i % 5 : Nat) : Int)
      y := ((i / 5 : Nat) : Int) }

/-- The full-board scenario of the specification: board 5x5, snake on all 25
cells. -/
def scenarioFull : Game :=
  { newGame with
    snake := serpentine5
    food := { x := 0, y := 0 }
    direction := Direction.RIGHT
    nextDirection := Direction.RIGHT
    boardWidth := 5
    boardHeight := 5 }

/-- The state `reset()` returns on an 80x40 terminal when `rand()` returns
0, 1, 2, …: board 40x20, snake of three segments at the centre, food at (0,1). -/
def sessionStart : Game :=
  { snake := [{ x := 20, y := 10 }, { x := 19, y := 10 }, { x := 18, y := 10 }]
    food := { x := 0, y := 1 }
    direction := Direction.NONE
    nextDirection := Direction.NONE
    gameOver := false
    paused := false
    score := 0
    speed := 150
    boardWidth := 40
    boardHeight := 20
    terminalWidth := 80
    terminalHeight := 40
    sizeWarning := false
    sizeWarningMessage := ""
    randCalls := 2 }

/-- The state after one loop iteration from `sessionStart` with the key `d`
pending: the snake has moved one cell to the right. -/
def sessionAfterRight : Game :=
  { sessionStart with
    snake := [{ x := 21, y := 10 }, { x := 20, y := 10 }, { x := 19, y := 10 }]
    direction := Direction.RIGHT
    nextDirection := Direction.RIGHT }

/-- A random source whose first two values put the first food at (21,10), right
in front of the initial snake of the 40x20 board; afterwards it counts. -/
def foodAheadRnd : Nat → Nat := fun n => if n = 0 then 21 else if n = 1 then 10 else n

/-- The state `reset()` returns on an 80x40 terminal with `foodAheadRnd`. -/
def aheadStart : Game :=
  { sessionStart with food := { x := 21, y := 10 } }

/-- The state after one loop iteration from `aheadStart` with the key `d`
pending: the snake has eaten the food, the next food is at (2,3). -/
def aheadAfterEat : Game :=
  { aheadStart with
    snake := [{ x := 21, y := 10 }, { x := 20, y := 10 }, { x := 19, y := 10 },
      { x := 18, y := 10 }]
    food := { x := 2, y := 3 }
    direction := Direction.RIGHT
    nextDirection := Direction.RIGHT
    score := 1
    speed := 145
    randCalls := 4 }

/-- The turn a key asks for, read off the case labels of the `switch (key)` of
`processInput`: `w`/`W` up, `s`/`S` down, `a`/`A` left, `d`/`D` right. -/
def turnIntent (key : Char) : Option Direction :=
  if key = 'w' ∨ key = 'W' then some Direction.UP
  else if key = 's' ∨ key = 'S' then some Direction.DOWN
  else if key = 'a' ∨ key = 'A' then some Direction.LEFT
  else if key = 'd' ∨ key = 'D' then some Direction.RIGHT
  else none

/-- The key `processInput` hands to its `switch (key)`: `none` when the
keyboard pointer is null or no byte is pending. -/
def polledKey (keyboard : Option (List Char)) : Option Char :=
  match keyboard with
  | none => none
  | some pending =>
    match pollKey pending with
    | none => none
    | some (key, _) => some key

/-- The state after one loop iteration from `sessionAfterRight` with the space
key pending: the game is paused, the tick was skipped. -/
def sessionPaused : Game :=
  { sessionAfterRight with paused := true }

/-- The state `reset()` returns on a terminal of 7 columns and 11 rows when
`rand()` returns 0, 1, 2, …: board 3x2, the third segment of the snake lies on
the second one. -/
def narrowStart : Game :=
  { snake := [{ x := 1, y := 1 }, { x := 0, y := 1 }, { x := 0, y := 1 }]
    food := { x := 2, y := 1 }
    direction := Direction.NONE
    nextDirection := Direction.NONE
    gameOver := false
    paused := false
    score := 0
    speed := 150
    boardWidth := 3
    boardHeight := 2
    terminalWidth := 7
    terminalHeight := 11
    sizeWarning := true
    sizeWarningMessage := "Arena 3x2"
    randCalls := 4 }

/-- The snake `reset()` is specified to build on a board of width `w` and
height `h`, written with the rounding-down division of `Int`. -/
def layout (w h : Int) : List Point :=
  [{ x := w / 2, y := h / 2 }] ++
    (if w > 1 then [{ x := max 0 (w / 2 - 1), y := h / 2 }] else []) ++
    (if w > 2 then [{ x := max 0 (w / 2 - 2), y := h / 2 }] else [])

/-- A random source that returns 0 on every call. -/
def zeroRnd : Nat → Nat := fun _ => 0

/-- A snake of three segments lying in the corner (0,0) of the 10x10 board. -/
def scenarioCorner : Game :=
  { scenarioEat with
    snake := [{ x := 2, y := 0 }, { x := 1, y := 0 }, { x := 0, y := 0 }]
    food := { x := 6, y := 5 } }

/-- The relation between the two direction fields that the play loop keeps:
both are `NONE` or neither is, and the pending direction is not the opposite
of the current one. -/
def DirectionPair (s : Game) : Prop :=
  (s.direction = Direction.NONE ↔ s.nextDirection = Direction.NONE) ∧
    (s.direction ≠ Direction.NONE → s.nextDirection ≠ opposite s.direction)

/-- The state `reset()` returns on a terminal of 5 columns and 40 rows when
`rand()` returns 0, 1, 2, …: board 1x20, snake of one segment, food at (0,1). -/
def columnStart : Game :=
  { snake := [{ x := 0, y := 10 }]
    food := { x := 0, y := 1 }
    direction := Direction.NONE
    nextDirection := Direction.NONE
    gameOver := false
    paused := false
    score := 0
    speed := 150
    boardWidth := 1
    boardHeight := 20
    terminalWidth := 5
    terminalHeight := 40
    sizeWarning := true
    sizeWarningMessage := "Arena 1x20"
    randCalls := 2 }

/-! ## Lemmas on food placement -/

theorem spawnFoodLoop_ok (rnd : Nat → Nat) (fuel : Nat) (s s' : Game)
    (h : spawnFoodLoop rnd fuel s = Except.ok s') :
    ∃ food n, s' = { s with food := food, randCalls := n } ∧ food ∉ s.snake := by
  induction fuel generalizing s with
  | zero => simp [spawnFoodLoop] at h
  | succ fuel ih =>
    simp only [spawnFoodLoop] at h
    split at h
    · obtain ⟨food, n, hs, hfood⟩ := ih _ h
      exact ⟨food, n, hs, hfood⟩
    · rename_i hfree
      injection h with h
      exact ⟨drawCell rnd s, s.randCalls + 2, h.symm, hfree⟩

theorem cellAt_zero (rnd : Nat → Nat) (s : Game) : cellAt rnd s 0 = drawCell rnd s := rfl

theorem cellAt_succ (rnd : Nat → Nat) (s : Game) (k : Nat) :
    cellAt rnd s (k + 1) =
      cellAt rnd { s with food := drawCell rnd s, randCalls := s.randCalls + 2 } k := by
  simp only [cellAt, drawCell]
  have e : s.randCalls + 2 * (k + 1) = s.randCalls + 2 + 2 * k := by omega
  rw [e]

theorem spawnFoodLoop_returns (rnd : Nat → Nat) (k : Nat) (s : Game) (fuel : Nat)
    (hk : k < fuel) (hfree : cellAt rnd s k ∉ s.snake) :
    ∃ s', spawnFoodLoop rnd fuel s = Except.ok s' := by
  induction k generalizing s fuel with
  | zero =>
    obtain ⟨f, rfl⟩ : ∃ f, fuel = f + 1 := ⟨fuel - 1, by omega⟩
    rw [cellAt_zero] at hfree
    simp only [spawnFoodLoop]
    rw [if_neg hfree]
    exact ⟨_, rfl⟩
  | succ k ih =>
    obtain ⟨f, rfl⟩ : ∃ f, fuel = f + 1 := ⟨fuel - 1, by omega⟩
    simp only [spawnFoodLoop]
    split
    · apply ih
      · omega
      · rw [cellAt_succ] at hfree
        exact hfree
    · exact ⟨_, rfl⟩

theorem spawnFoodLoop_ne_emptySnake (rnd : Nat → Nat) (fuel : Nat) (s : Game) :
    spawnFoodLoop rnd fuel s ≠ Except.error Fault.emptySnake := by
  induction fuel generalizing s with
  | zero => simp [spawnFoodLoop]
  | succ fuel ih =>
    simp only [spawnFoodLoop]
    split
    · exact ih _
    · simp

theorem spawnFood_ne_emptySnake (rnd : Nat → Nat) (fuel : Nat) (s : Game) :
    spawnFood rnd fuel s ≠ Except.error Fault.emptySnake := by
  unfold spawnFood
  split
  · simp
  · exact spawnFoodLoop_ne_emptySnake rnd fuel s

theorem spawnFood_ok (rnd : Nat → Nat) (fuel : Nat) (s s' : Game)
    (h : spawnFood rnd fuel s = Except.ok s') :
    s' = { s with gameOver := true } ∨
      ∃ food n, s' = { s with food := food, randCalls := n } ∧ food ∉ s.snake := by
  unfold spawnFood at h
  split at h
  · injection h with h
    exact Or.inl h.symm
  · exact Or.inr (spawnFoodLoop_ok rnd fuel s s' h)

theorem spawnFood_returns (rnd : Nat → Nat) (fuel : Nat) (s : Game)
    (h : (s.snake.length : Int) ≥ s.boardWidth * s.boardHeight ∨
      ∃ k, k < fuel ∧ cellAt rnd s k ∉ s.snake) :
    ∃ s', spawnFood rnd fuel s = Except.ok s' := by
  unfold spawnFood
  split
  · exact ⟨_, rfl⟩
  · rename_i hfull
    rcases h with h | ⟨k, hk, hfree⟩
    · exact absurd h hfull
    · exact spawnFoodLoop_returns rnd k s fuel hk hfree

theorem projectHead_shift (d : Direction) (head : Point) (hd : d ≠ Direction.NONE) :
    projectHead d head = some (shift head d) := by
  cases d <;> simp [projectHead, shift, delta] at hd ⊢
  all_goals rfl

/-- What `moveSnake` computes on a non-empty snake once the direction is
committed to a value other than `NONE`. -/
theorem moveSnake_unfold (rnd : Nat → Nat) (fuel : Nat) (s : Game) (head : Point)
    (tail : List Point) (hsnake : s.snake = head :: tail)
    (hd : commitDirection s.direction s.nextDirection ≠ Direction.NONE) :
    moveSnake rnd fuel s =
      (let d := commitDirection s.direction s.nextDirection
       let newHead := shift head d
       let s1 : Game := { s with direction := d }
       if hitsWall s newHead then Except.ok { s1 with gameOver := true }
       else if newHead ∈ s.snake then Except.ok { s1 with gameOver := true }
       else if newHead = s.food then
         spawnFood rnd fuel
           { s1 with
             snake := newHead :: s.snake
             score := s.score + 1
             speed := max 50 (INITIAL_SPEED - (s.score + 1) * SPEED_INCREMENT) }
       else Except.ok { s1 with snake := (newHead :: s.snake).dropLast }) := by
  simp only [moveSnake, hsnake, projectHead_shift _ head hd, hitsWall]

/-- The four ways `moveSnake` returns a state. -/
theorem moveSnake_ok_cases (rnd : Nat → Nat) (fuel : Nat) (s s' : Game)
    (h : moveSnake rnd fuel s = Except.ok s') :
    ∃ head tail, s.snake = head :: tail ∧
      ((commitDirection s.direction s.nextDirection = Direction.NONE ∧
          s' = { s with direction := commitDirection s.direction s.nextDirection }) ∨
        (s' = { s with
            direction := commitDirection s.direction s.nextDirection, gameOver := true }) ∨
        (shift head (commitDirection s.direction s.nextDirection) ∉ s.snake ∧
          shift head (commitDirection s.direction s.nextDirection) = s.food ∧
          (s' = { s with
              direction := commitDirection s.direction s.nextDirection
              snake := shift head (commitDirection s.direction s.nextDirection) :: s.snake
              score := s.score + 1
              speed := max 50 (INITIAL_SPEED - (s.score + 1) * SPEED_INCREMENT)
              gameOver := true } ∨
            ∃ food n,
              food ∉ shift head (commitDirection s.direction s.nextDirection) :: s.snake ∧
              s' = { s with
                direction := commitDirection s.direction s.nextDirection
                snake := shift head (commitDirection s.direction s.nextDirection) :: s.snake
                score := s.score + 1
                speed := max 50 (INITIAL_SPEED - (s.score + 1) * SPEED_INCREMENT)
                food := food
                randCalls := n })) ∨
        (shift head (commitDirection s.direction s.nextDirection) ∉ s.snake ∧
          shift head (commitDirection s.direction s.nextDirection) ≠ s.food ∧
          s' = { s with
            direction := commitDirection s.direction s.nextDirection
            snake :=
              (shift head (commitDirection s.direction s.nextDirection) :: s.snake).dropLast
            })) := by
  cases hsnake : s.snake with
  | nil => simp [moveSnake, hsnake] at h
  | cons head tail =>
    refine ⟨head, tail, rfl, ?_⟩
    by_cases hd : commitDirection s.direction s.nextDirection = Direction.NONE
    · left
      refine ⟨hd, ?_⟩
      simp only [moveSnake, hsnake, hd, projectHead] at h
      injection h with h
      rw [← h, hd]
    · right
      rw [moveSnake_unfold rnd fuel s head tail hsnake hd] at h
      rw [← hsnake]
      simp only at h
      split at h
      · left
        injection h with h
        exact h.symm
      · split at h
        · left
          injection h with h
          exact h.symm
        · rename_i hfree
          right
          split at h
          · rename_i hfood
            left
            refine ⟨hfree, hfood, ?_⟩
            rcases spawnFood_ok rnd fuel _ s' h with h' | ⟨food, n, h', hfresh⟩
            · left; exact h'
            · right; exact ⟨food, n, hfresh, h'⟩
          · rename_i hfood
            right
            injection h with h
            exact ⟨hfree, hfood, h.symm⟩

theorem applyKey_frame (key : Char) (s : Game) :
    (applyKey key s).snake = s.snake ∧ (applyKey key s).food = s.food ∧
      (applyKey key s).score = s.score ∧ (applyKey key s).speed = s.speed ∧
      (applyKey key s).boardWidth = s.boardWidth ∧
      (applyKey key s).boardHeight = s.boardHeight := by
  unfold applyKey
  split_ifs <;> exact ⟨rfl, rfl, rfl, rfl, rfl, rfl⟩

theorem processInput_frame (keyboard : Option (List Char)) (s : Game) :
    (processInput keyboard s).snake = s.snake ∧ (processInput keyboard s).food = s.food ∧
      (processInput keyboard s).score = s.score ∧ (processInput keyboard s).speed = s.speed ∧
      (processInput keyboard s).boardWidth = s.boardWidth ∧
      (processInput keyboard s).boardHeight = s.boardHeight := by
  unfold processInput
  split
  · exact ⟨rfl, rfl, rfl, rfl, rfl, rfl⟩
  · split
    · exact ⟨rfl, rfl, rfl, rfl, rfl, rfl⟩
    · exact applyKey_frame _ s

/-- A tick keeps the food off the snake while the game goes on. -/
theorem moveSnake_food_off_snake (rnd : Nat → Nat) (fuel : Nat) (s s' : Game)
    (hinv : s.food ∉ s.snake) (h : moveSnake rnd fuel s = Except.ok s')
    (hgo : s'.gameOver = false) : s'.food ∉ s'.snake := by
  obtain ⟨head, tail, hsnake, hcases⟩ := moveSnake_ok_cases rnd fuel s s' h
  rcases hcases with ⟨_, hs'⟩ | hs' | ⟨_, _, hs' | ⟨food, n, hfresh, hs'⟩⟩ | ⟨_, hne, hs'⟩
  · rw [hs']; exact hinv
  · rw [hs'] at hgo; cases hgo
  · rw [hs'] at hgo; cases hgo
  · rw [hs']; exact hfresh
  · rw [hs']
    intro hmem
    have hmem' := List.dropLast_subset _ hmem
    rcases List.mem_cons.mp hmem' with heq | hin
    · exact hne heq.symm
    · exact hinv hin

/-- The speed is the closed form of the score, and the score is not negative,
in the state `reset` returns and after every tick. -/
theorem moveSnake_speed_inv (rnd : Nat → Nat) (fuel : Nat) (s s' : Game)
    (hinv : s.speed = max 50 (150 - 5 * s.score) ∧ 0 ≤ s.score)
    (h : moveSnake rnd fuel s = Except.ok s') :
    s'.speed = max 50 (150 - 5 * s'.score) ∧ 0 ≤ s'.score := by
  obtain ⟨head, tail, hsnake, hcases⟩ := moveSnake_ok_cases rnd fuel s s' h
  have hstep : max 50 (INITIAL_SPEED - (s.score + 1) * SPEED_INCREMENT) =
      max 50 (150 - 5 * (s.score + 1)) := by
    congr 1
    simp only [INITIAL_SPEED, SPEED_INCREMENT]
    ring
  have hpos : 0 ≤ s.score + 1 := by omega
  rcases hcases with ⟨_, hs'⟩ | hs' | ⟨_, _, hs' | ⟨food, n, hfresh, hs'⟩⟩ | ⟨_, hne, hs'⟩
  · rw [hs']; exact hinv
  · rw [hs']; exact hinv
  · rw [hs']; exact ⟨hstep, hpos⟩
  · rw [hs']; exact ⟨hstep, hpos⟩
  · rw [hs']; exact hinv

/-! ## The tick -/

/-- C1: postcondition of a non-colliding tick.  On a non-empty snake, when the
committed direction is not `NONE` and the projected head `head + delta` lies
inside the board and on no segment: if the projected head is not the food,
`moveSnake` returns (whatever the fuel) a state whose snake is the projected
head followed by the old snake without its last segment, with length and score
unchanged; if it is the food, `moveSnake` never faults on the snake, every
state it returns has the projected head followed by the whole old snake, length
and score both one larger, and it does return as soon as the board is full or
one of the first `fuel` cells drawn by the food loop is free. -/
theorem moveSnake_advance (rnd : Nat → Nat) (fuel : Nat) (s : Game) (head : Point)
    (tail : List Point) (hsnake : s.snake = head :: tail)
    (hd : commitDirection s.direction s.nextDirection ≠ Direction.NONE)
    (hinside : 0 ≤ (shift head (commitDirection s.direction s.nextDirection)).x ∧
      (shift head (commitDirection s.direction s.nextDirection)).x < s.boardWidth ∧
      0 ≤ (shift head (commitDirection s.direction s.nextDirection)).y ∧
      (shift head (commitDirection s.direction s.nextDirection)).y < s.boardHeight)
    (hfree : shift head (commitDirection s.direction s.nextDirection) ∉ s.snake) :
    (shift head (commitDirection s.direction s.nextDirection) ≠ s.food →
      ∃ s', moveSnake rnd fuel s = Except.ok s' ∧
        s'.snake = shift head (commitDirection s.direction s.nextDirection) :: s.snake.dropLast ∧
        s'.snake.length = s.snake.length ∧ s'.score = s.score) ∧
    (shift head (commitDirection s.direction s.nextDirection) = s.food →
      moveSnake rnd fuel s ≠ Except.error Fault.emptySnake ∧
      (∀ s', moveSnake rnd fuel s = Except.ok s' →
        s'.snake = shift head (commitDirection s.direction s.nextDirection) :: s.snake ∧
        s'.snake.length = s.snake.length + 1 ∧ s'.score = s.score + 1) ∧
      (((s.snake.length + 1 : Int) ≥ s.boardWidth * s.boardHeight ∨
          ∃ k, k < fuel ∧
            cellAt rnd s k ∉
              shift head (commitDirection s.direction s.nextDirection) :: s.snake) →
        ∃ s', moveSnake rnd fuel s = Except.ok s')) := by
  have hwall : ¬ hitsWall s (shift head (commitDirection s.direction s.nextDirection)) := by
    unfold hitsWall; omega
  rw [moveSnake_unfold rnd fuel s head tail hsnake hd]
  simp only [if_neg hwall, if_neg hfree]
  refine ⟨fun hne => ?_, fun heq => ?_⟩
  · rw [if_neg hne]
    refine ⟨_, rfl, ?_, ?_, rfl⟩
    · simp [hsnake]
    · simp [hsnake]
  · rw [if_pos heq]
    refine ⟨?_, ?_, ?_⟩
    · exact spawnFood_ne_emptySnake rnd fuel _
    · intro s' hs'
      rcases spawnFood_ok rnd fuel _ s' hs' with h | ⟨food, n, h, _⟩
      · subst h
        refine ⟨rfl, ?_, rfl⟩
        simp
      · subst h
        refine ⟨rfl, ?_, rfl⟩
        simp
    · intro hret
      apply spawnFood_returns
      rcases hret with h | ⟨k, hk, hcell⟩
      · left
        simp only [List.length_cons]
        push_cast
        exact h
      · right
        exact ⟨k, hk, hcell⟩

/-- Witness for C1 (the scenario of the specification): board 10x10, snake
(5,5),(4,5),(3,5) moving right, food at (6,5); the tick returns a state with
head (6,5), score 1 and length 4. -/
theorem moveSnake_advance_witness :
    ∃ s', moveSnake countingRnd 1 scenarioEat = Except.ok s' ∧
      s'.snake.head? = some { x := 6, y := 5 } ∧ s'.score = 1 ∧ s'.snake.length = 4 := by
  have h := moveSnake_advance countingRnd 1 scenarioEat { x := 5, y := 5 }
    [{ x := 4, y := 5 }, { x := 3, y := 5 }] rfl (by decide) (by decide) (by decide)
  obtain ⟨s', hs'⟩ := h.2 (by decide) |>.2.2 (Or.inr ⟨0, by decide, by decide⟩)
  obtain ⟨hsn, hlen, hsc⟩ := (h.2 (by decide)).2.1 s' hs'
  refine ⟨s', hs', ?_, ?_, ?_⟩
  · rw [hsn]; rfl
  · rw [hsc]; rfl
  · rw [hlen]; rfl

/-- C2: wall collision.  On a non-empty snake, when the committed direction is
not `NONE` and the projected head has `x < 0`, `x >= boardWidth`, `y < 0` or
`y >= boardHeight`, `moveSnake` returns (for every random source and fuel) the
state it was given with `gameOver` set and the committed direction stored:
snake, food, score and speed are exactly as before. -/
theorem moveSnake_wall (rnd : Nat → Nat) (fuel : Nat) (s : Game) (head : Point)
    (tail : List Point) (hsnake : s.snake = head :: tail)
    (hd : commitDirection s.direction s.nextDirection ≠ Direction.NONE)
    (hout : (shift head (commitDirection s.direction s.nextDirection)).x < 0 ∨
      (shift head (commitDirection s.direction s.nextDirection)).x ≥ s.boardWidth ∨
      (shift head (commitDirection s.direction s.nextDirection)).y < 0 ∨
      (shift head (commitDirection s.direction s.nextDirection)).y ≥ s.boardHeight) :
    ∃ s', moveSnake rnd fuel s = Except.ok s' ∧
      s' = { s with
        direction := commitDirection s.direction s.nextDirection, gameOver := true } ∧
      s'.gameOver = true ∧ s'.snake = s.snake ∧ s'.food = s.food ∧
      s'.score = s.score ∧ s'.speed = s.speed := by
  have hwall : hitsWall s (shift head (commitDirection s.direction s.nextDirection)) := hout
  rw [moveSnake_unfold rnd fuel s head tail hsnake hd]
  simp only [if_pos hwall]
  exact ⟨_, rfl, rfl, rfl, rfl, rfl, rfl, rfl⟩

/-- Witness for C2: on the 10x10 board a snake with head (9,5) moving right
projects its head to x = 10 and the tick ends the game. -/
theorem moveSnake_wall_witness :
    ∃ s', moveSnake countingRnd 0 scenarioWall = Except.ok s' ∧
      s' = { scenarioWall with
        direction := commitDirection scenarioWall.direction scenarioWall.nextDirection
        gameOver := true } ∧
      s'.gameOver = true ∧ s'.snake = scenarioWall.snake ∧ s'.food = scenarioWall.food ∧
      s'.score = scenarioWall.score ∧ s'.speed = scenarioWall.speed :=
  moveSnake_wall countingRnd 0 scenarioWall { x := 9, y := 5 }
    [{ x := 8, y := 5 }, { x := 7, y := 5 }] rfl (by decide) (by decide)

/-- C3: self collision.  On a non-empty snake, when the committed direction is
not `NONE` and the projected head is inside the board and equal to a segment of
the snake (the last one included), `moveSnake` returns the state it was given
with `gameOver` set and the committed direction stored: snake, food, score and
speed are unchanged. -/
theorem moveSnake_self (rnd : Nat → Nat) (fuel : Nat) (s : Game) (head : Point)
    (tail : List Point) (hsnake : s.snake = head :: tail)
    (hd : commitDirection s.direction s.nextDirection ≠ Direction.NONE)
    (hinside : 0 ≤ (shift head (commitDirection s.direction s.nextDirection)).x ∧
      (shift head (commitDirection s.direction s.nextDirection)).x < s.boardWidth ∧
      0 ≤ (shift head (commitDirection s.direction s.nextDirection)).y ∧
      (shift head (commitDirection s.direction s.nextDirection)).y < s.boardHeight)
    (hhit : shift head (commitDirection s.direction s.nextDirection) ∈ s.snake) :
    ∃ s', moveSnake rnd fuel s = Except.ok s' ∧
      s' = { s with
        direction := commitDirection s.direction s.nextDirection, gameOver := true } ∧
      s'.gameOver = true ∧ s'.snake = s.snake ∧ s'.food = s.food ∧
      s'.score = s.score ∧ s'.speed = s.speed := by
  have hwall : ¬ hitsWall s (shift head (commitDirection s.direction s.nextDirection)) := by
    unfold hitsWall; omega
  rw [moveSnake_unfold rnd fuel s head tail hsnake hd]
  simp only [if_neg hwall, if_pos hhit]
  exact ⟨_, rfl, rfl, rfl, rfl, rfl, rfl, rfl⟩

/-- Witness for C3: a snake coiled in a 2x2 square whose head moves onto its
own last segment (the cell that would be vacated this tick). -/
theorem moveSnake_self_witness :
    ∃ s', moveSnake countingRnd 0 scenarioCoil = Except.ok s' ∧
      s' = { scenarioCoil with
        direction := commitDirection scenarioCoil.direction scenarioCoil.nextDirection
        gameOver := true } ∧
      s'.gameOver = true ∧ s'.snake = scenarioCoil.snake ∧ s'.food = scenarioCoil.food ∧
      s'.score = scenarioCoil.score ∧ s'.speed = scenarioCoil.speed :=
  moveSnake_self countingRnd 0 scenarioCoil { x := 5, y := 5 }
    [{ x := 5, y := 6 }, { x := 4, y := 6 }, { x := 4, y := 5 }] rfl (by decide) (by decide)
    (by decide)

/-- C4: reversal rejection.  For `D` among `UP`, `DOWN`, `LEFT`, `RIGHT` and a
state with a non-empty snake, `direction = D` and `nextDirection = opposite D`:
`moveSnake` never faults on the snake, every state it returns has direction
`D`, and the tick is played with the head projected along `D`: it ends the game
leaving the snake untouched when `head + delta D` is outside the board or on a
segment, and otherwise every state it returns has `head + delta D` as its head
(and it does return when that cell is not the food). -/
theorem moveSnake_reversal_rejected (rnd : Nat → Nat) (fuel : Nat) (s : Game) (D : Direction)
    (head : Point) (tail : List Point) (hsnake : s.snake = head :: tail)
    (hD : D ≠ Direction.NONE) (hdir : s.direction = D) (hnext : s.nextDirection = opposite D) :
    moveSnake rnd fuel s ≠ Except.error Fault.emptySnake ∧
    (∀ s', moveSnake rnd fuel s = Except.ok s' → s'.direction = D) ∧
    (hitsWall s (shift head D) ∨ shift head D ∈ s.snake →
      moveSnake rnd fuel s = Except.ok { s with gameOver := true }) ∧
    (¬ hitsWall s (shift head D) → shift head D ∉ s.snake →
      (∀ s', moveSnake rnd fuel s = Except.ok s' → s'.snake.head? = some (shift head D)) ∧
      (shift head D ≠ s.food → ∃ s', moveSnake rnd fuel s = Except.ok s')) := by
  subst hdir
  have hc : commitDirection s.direction s.nextDirection = s.direction := by
    rw [hnext]
    cases hcase : s.direction <;> simp [commitDirection, opposite]
  have hd : commitDirection s.direction s.nextDirection ≠ Direction.NONE := by
    rw [hc]; exact hD
  have heta : ({ s with direction := s.direction } : Game) = s := rfl
  rw [moveSnake_unfold rnd fuel s head tail hsnake hd]
  simp only [hc, heta]
  refine ⟨?_, ?_, ?_, ?_⟩
  · split
    · simp
    · split
      · simp
      · split
        · exact spawnFood_ne_emptySnake rnd fuel _
        · simp
  · intro s' hs'
    split at hs'
    · injection hs' with hs'; rw [← hs']
    · split at hs'
      · injection hs' with hs'; rw [← hs']
      · split at hs'
        · rcases spawnFood_ok rnd fuel _ s' hs' with h | ⟨food, n, h, _⟩
          · rw [h]
          · rw [h]
        · injection hs' with hs'; rw [← hs']
  · intro hcol
    rcases hcol with hw | hm
    · rw [if_pos hw]
    · by_cases hw : hitsWall s (shift head s.direction)
      · rw [if_pos hw]
      · rw [if_neg hw, if_pos hm]
  · intro hw hm
    rw [if_neg hw, if_neg hm]
    refine ⟨?_, ?_⟩
    · intro s' hs'
      split at hs'
      · rcases spawnFood_ok rnd fuel _ s' hs' with h | ⟨food, n, h, _⟩
        · rw [h]; rfl
        · rw [h]; rfl
      · injection hs' with hs'
        rw [← hs']
        simp [hsnake]
    · intro hne
      rw [if_neg hne]
      exact ⟨_, rfl⟩

/-- Witness for C4: the snake of the 10x10 scenario moving right with a queued
turn to the left keeps going right. -/
theorem moveSnake_reversal_rejected_witness :
    (∀ s', moveSnake countingRnd 1 scenarioReverse = Except.ok s' →
      s'.direction = Direction.RIGHT) ∧
    ∃ s', moveSnake countingRnd 1 scenarioReverse = Except.ok s' ∧
      s'.snake.head? = some { x := 6, y := 5 } := by
  have h := moveSnake_reversal_rejected countingRnd 1 scenarioReverse Direction.RIGHT
    { x := 5, y := 5 } [{ x := 4, y := 5 }, { x := 3, y := 5 }] rfl (by decide) rfl rfl
  obtain ⟨_, hdir, _, hmove⟩ := h
  obtain ⟨hhead, hret⟩ := hmove (by decide) (by decide)
  obtain ⟨s', hs'⟩ := hret (by decide)
  exact ⟨hdir, s', hs', hhead s' hs'⟩

/-! ## Food -/

/-- C5: food invariant.  In every state reachable from `reset()` by iterations
of the play loop (any pending keys, any terminal size, any values of the random
source), if `gameOver` is false then the food is on no snake segment. -/
theorem food_invariant (rnd : Nat → Nat) (s : Game) (hreach : Reachable rnd s)
    (hgo : s.gameOver = false) : s.food ∉ s.snake := by
  induction hreach with
  | start query fuel s0 s hreset =>
    unfold reset at hreset
    rcases spawnFood_ok rnd fuel _ s hreset with h | ⟨food, n, h, hfresh⟩
    · rw [h] at hgo; cases hgo
    · rw [h]; exact hfresh
  | iterate keyboard fuel s s' _ hrun hiter ih =>
    have hinv := ih hrun
    obtain ⟨hsn, hfd, _⟩ := processInput_frame keyboard s
    unfold loopIteration at hiter
    simp only at hiter
    split at hiter
    · injection hiter with hiter
      rw [← hiter, hsn, hfd]
      exact hinv
    · apply moveSnake_food_off_snake rnd fuel _ s' _ hiter hgo
      rw [hsn, hfd]
      exact hinv

/-- Witness for C5: the state reached on an 80x40 terminal after `reset()` and
one iteration with the key `d` pending is reachable, the game goes on, and the
food (0,1) is not on the snake. -/
theorem food_invariant_witness :
    Reachable countingRnd sessionAfterRight ∧ sessionAfterRight.gameOver = false ∧
      sessionAfterRight.food ∉ sessionAfterRight.snake :=
  have hreach : Reachable countingRnd sessionAfterRight :=
    Reachable.iterate (some ['d']) 1 sessionStart sessionAfterRight
      (Reachable.start (some (80, 40)) 1 newGame sessionStart rfl) rfl rfl
  ⟨hreach, rfl, food_invariant countingRnd sessionAfterRight hreach rfl⟩

/-- C6: full board.  When the snake has at least `boardWidth * boardHeight`
segments, `spawnFood` returns (for every random source and every fuel, so
without running the loop) the state it was given with `gameOver` set: no random
value is drawn, food and snake are unchanged. -/
theorem spawnFood_full_board (rnd : Nat → Nat) (fuel : Nat) (s : Game)
    (hfull : (s.snake.length : Int) ≥ s.boardWidth * s.boardHeight) :
    ∃ s', spawnFood rnd fuel s = Except.ok s' ∧ s' = { s with gameOver := true } ∧
      s'.gameOver = true ∧ s'.randCalls = s.randCalls ∧ s'.food = s.food ∧
      s'.snake = s.snake := by
  unfold spawnFood
  rw [if_pos hfull]
  exact ⟨_, rfl, rfl, rfl, rfl, rfl, rfl⟩

/-- Witness for C6: board 5x5 with a snake of 25 segments. -/
theorem spawnFood_full_board_witness :
    scenarioFull.snake.length = 25 ∧
      ∃ s', spawnFood countingRnd 0 scenarioFull = Except.ok s' ∧
        s' = { scenarioFull with gameOver := true } ∧
        s'.gameOver = true ∧ s'.randCalls = scenarioFull.randCalls ∧
        s'.food = scenarioFull.food ∧ s'.snake = scenarioFull.snake :=
  ⟨rfl, spawnFood_full_board countingRnd 0 scenarioFull (by decide)⟩

/-! ## Speed -/

/-- The closed form of the speed holds in every reachable state, with a score
that is not negative. -/
theorem reachable_speed_inv (rnd : Nat → Nat) (s : Game) (hreach : Reachable rnd s) :
    s.speed = max 50 (150 - 5 * s.score) ∧ 0 ≤ s.score := by
  induction hreach with
  | start query fuel s0 s hreset =>
    unfold reset at hreset
    rcases spawnFood_ok rnd fuel _ s hreset with h | ⟨food, n, h, _⟩
    · rw [h]
      show INITIAL_SPEED = max 50 (150 - 5 * 0) ∧ (0 : Int) ≤ 0
      exact ⟨by decide, by decide⟩
    · rw [h]
      show INITIAL_SPEED = max 50 (150 - 5 * 0) ∧ (0 : Int) ≤ 0
      exact ⟨by decide, by decide⟩
  | iterate keyboard fuel s s' _ _ hiter ih =>
    obtain ⟨_, _, hsc, hsp, _⟩ := processInput_frame keyboard s
    unfold loopIteration at hiter
    simp only at hiter
    split at hiter
    · injection hiter with hiter
      rw [← hiter, hsc, hsp]
      exact ih
    · apply moveSnake_speed_inv rnd fuel _ s' _ hiter
      rw [hsc, hsp]
      exact ih

/-- C7: speed monotonicity.  In every state reachable from `reset()` the speed
is `max(50, 150 - 5*score)`, it lies between 50 and 150, and of two reachable
states the one with the larger score has the smaller or equal speed. -/
theorem speed_monotone (rnd : Nat → Nat) (a b : Game) (ha : Reachable rnd a)
    (hb : Reachable rnd b) :
    a.speed = max 50 (150 - 5 * a.score) ∧ 50 ≤ a.speed ∧ a.speed ≤ 150 ∧
      (a.score < b.score → b.speed ≤ a.speed) := by
  obtain ⟨hsa, hpa⟩ := reachable_speed_inv rnd a ha
  obtain ⟨hsb, _⟩ := reachable_speed_inv rnd b hb
  refine ⟨hsa, ?_, ?_, ?_⟩
  · rw [hsa]; exact le_max_left _ _
  · rw [hsa]; exact max_le (by decide) (by omega)
  · intro hlt
    rw [hsa, hsb]
    exact max_le_max (le_refl _) (by omega)

/-- Witness for C7: the session whose first food lies right in front of the
snake; the state after `reset()` has score 0 and speed 150, the state after
the first tick has score 1 and speed 145. -/
theorem speed_monotone_witness :
    Reachable foodAheadRnd aheadStart ∧ Reachable foodAheadRnd aheadAfterEat ∧
      aheadStart.score = 0 ∧ aheadAfterEat.score = 1 ∧ aheadStart.speed = 150 ∧
      aheadAfterEat.speed = 145 ∧ aheadAfterEat.speed ≤ aheadStart.speed :=
  have ha : Reachable foodAheadRnd aheadStart :=
    Reachable.start (some (80, 40)) 1 newGame aheadStart rfl
  have hb : Reachable foodAheadRnd aheadAfterEat :=
    Reachable.iterate (some ['d']) 1 aheadStart aheadAfterEat ha rfl rfl
  ⟨ha, hb, rfl, rfl, rfl, rfl, (speed_monotone foodAheadRnd aheadStart aheadAfterEat ha hb).2.2.2
    (by decide)⟩

/-! ## Board sizing -/

theorem updateBoardDimensions_width (tw th : Int) (s : Game) :
    (updateBoardDimensions (some (tw, th)) s).boardWidth =
      if tw - 4 ≥ 1 then min 40 (tw - 4) else 40 := by
  simp only [updateBoardDimensions, DEFAULT_WIDTH, MIN_WIDTH]
  split_ifs <;> omega

theorem updateBoardDimensions_height (tw th : Int) (s : Game) :
    (updateBoardDimensions (some (tw, th)) s).boardHeight =
      if th - 9 ≥ 1 then min 20 (th - 9) else 20 := by
  simp only [updateBoardDimensions, DEFAULT_HEIGHT, MIN_HEIGHT]
  split_ifs <;> omega

theorem updateBoardDimensions_warning (query : Option (Int × Int)) (s : Game) :
    (updateBoardDimensions query s).sizeWarning =
      (decide ((updateBoardDimensions query s).boardWidth < 40) ||
        decide ((updateBoardDimensions query s).boardHeight < 20)) := rfl

theorem updateBoardDimensions_message (query : Option (Int × Int)) (s : Game) :
    (updateBoardDimensions query s).sizeWarningMessage =
      if (updateBoardDimensions query s).sizeWarning then
        if ((longWarning (updateBoardDimensions query s).boardWidth
            (updateBoardDimensions query s).boardHeight).length : Int) >
            (updateBoardDimensions query s).boardWidth + 4 then
          shortWarning (updateBoardDimensions query s).boardWidth
            (updateBoardDimensions query s).boardHeight
        else longWarning (updateBoardDimensions query s).boardWidth
            (updateBoardDimensions query s).boardHeight
      else "" := rfl

/-- C8: the ideal case of the board sizing.  For a terminal of at least
`40 + 4` columns and `20 + 9` rows, `updateBoardDimensions` yields
`boardWidth = 40`, `boardHeight = 20`, `sizeWarning = false` and the empty
warning message; and for every outcome of the size query these four results do
not depend on the state the object was in. -/
theorem updateBoardDimensions_ideal (tw th : Int) (s t : Game) (hw : tw ≥ 40 + 4)
    (hh : th ≥ 20 + 9) :
    (updateBoardDimensions (some (tw, th)) s).boardWidth = 40 ∧
    (updateBoardDimensions (some (tw, th)) s).boardHeight = 20 ∧
    (updateBoardDimensions (some (tw, th)) s).sizeWarning = false ∧
    (updateBoardDimensions (some (tw, th)) s).sizeWarningMessage = "" ∧
    ∀ query : Option (Int × Int),
      (updateBoardDimensions query s).boardWidth = (updateBoardDimensions query t).boardWidth ∧
      (updateBoardDimensions query s).boardHeight =
        (updateBoardDimensions query t).boardHeight ∧
      (updateBoardDimensions query s).sizeWarning =
        (updateBoardDimensions query t).sizeWarning ∧
      (updateBoardDimensions query s).sizeWarningMessage =
        (updateBoardDimensions query t).sizeWarningMessage := by
  have hbw : (updateBoardDimensions (some (tw, th)) s).boardWidth = 40 := by
    rw [updateBoardDimensions_width, if_pos (by omega)]
    omega
  have hbh : (updateBoardDimensions (some (tw, th)) s).boardHeight = 20 := by
    rw [updateBoardDimensions_height, if_pos (by omega)]
    omega
  have hsw : (updateBoardDimensions (some (tw, th)) s).sizeWarning = false := by
    rw [updateBoardDimensions_warning, hbw, hbh]
    rfl
  refine ⟨hbw, hbh, hsw, ?_, fun query => ⟨rfl, rfl, rfl, rfl⟩⟩
  rw [updateBoardDimensions_message, hsw]
  rfl

/-- Witness for C8: a terminal of 80 columns and 40 rows. -/
theorem updateBoardDimensions_ideal_witness :
    (updateBoardDimensions (some (80, 40)) newGame).boardWidth = 40 ∧
    (updateBoardDimensions (some (80, 40)) newGame).boardHeight = 20 ∧
    (updateBoardDimensions (some (80, 40)) newGame).sizeWarning = false ∧
    (updateBoardDimensions (some (80, 40)) newGame).sizeWarningMessage = "" :=
  have h := updateBoardDimensions_ideal 80 40 newGame scenarioEat (by decide) (by decide)
  ⟨h.1, h.2.1, h.2.2.1, h.2.2.2.1⟩

/-- C9 as stated fails: on a 3x3 terminal the available space clamped to at
least 1 is 1 on both axes, below the floor 5, yet the board is 40x20 and
`sizeWarning` is false; it is not a board of at most 3x3 with a warning. -/
theorem updateBoardDimensions_tiny_counterexample :
    max ((3 : Int) - 4) 1 < 5 ∧ max ((3 : Int) - 9) 1 < 5 ∧
    (updateBoardDimensions (some (3, 3)) newGame).boardWidth = 40 ∧
    (updateBoardDimensions (some (3, 3)) newGame).boardHeight = 20 ∧
    (updateBoardDimensions (some (3, 3)) newGame).sizeWarning = false ∧
    ¬ ((updateBoardDimensions (some (3, 3)) newGame).boardWidth ≤ 3 ∧
      (updateBoardDimensions (some (3, 3)) newGame).boardHeight ≤ 3 ∧
      (updateBoardDimensions (some (3, 3)) newGame).sizeWarning = true) := by
  decide

/-- C9 amended: for every positive terminal size, an axis whose available space
(terminal size minus the padding, 4 columns or 9 rows) is at least 1 and below
the floor 5 gets exactly that available size as board dimension, and
`sizeWarning` is true; an axis whose terminal size minus padding is not
positive gets the ideal dimension (40 columns, 20 rows). -/
theorem updateBoardDimensions_floor (tw th : Int) (s : Game) (htw : 0 < tw) (hth : 0 < th) :
    (1 ≤ tw - 4 ∧ tw - 4 < 5 →
      (updateBoardDimensions (some (tw, th)) s).boardWidth = tw - 4 ∧
      (updateBoardDimensions (some (tw, th)) s).sizeWarning = true) ∧
    (1 ≤ th - 9 ∧ th - 9 < 5 →
      (updateBoardDimensions (some (tw, th)) s).boardHeight = th - 9 ∧
      (updateBoardDimensions (some (tw, th)) s).sizeWarning = true) ∧
    (tw - 4 ≤ 0 → (updateBoardDimensions (some (tw, th)) s).boardWidth = 40) ∧
    (th - 9 ≤ 0 → (updateBoardDimensions (some (tw, th)) s).boardHeight = 20) := by
  refine ⟨?_, ?_, ?_, ?_⟩
  · intro h
    have hbw : (updateBoardDimensions (some (tw, th)) s).boardWidth = tw - 4 := by
      rw [updateBoardDimensions_width, if_pos (by omega)]
      omega
    refine ⟨hbw, ?_⟩
    rw [updateBoardDimensions_warning, hbw]
    simp only [Bool.or_eq_true, decide_eq_true_eq]
    left
    omega
  · intro h
    have hbh : (updateBoardDimensions (some (tw, th)) s).boardHeight = th - 9 := by
      rw [updateBoardDimensions_height, if_pos (by omega)]
      omega
    refine ⟨hbh, ?_⟩
    rw [updateBoardDimensions_warning, hbh]
    simp only [Bool.or_eq_true, decide_eq_true_eq]
    right
    omega
  · intro h
    rw [updateBoardDimensions_width, if_neg (by omega)]
  · intro h
    rw [updateBoardDimensions_height, if_neg (by omega)]

/-- Witness for C9 amended: a terminal of 7 columns and 12 rows leaves 3 cells
on each axis and gives the 3x3 board with `sizeWarning` true. -/
theorem updateBoardDimensions_floor_witness :
    (updateBoardDimensions (some (7, 12)) newGame).boardWidth = 3 ∧
    (updateBoardDimensions (some (7, 12)) newGame).boardHeight = 3 ∧
    (updateBoardDimensions (some (7, 12)) newGame).sizeWarning = true :=
  have h := updateBoardDimensions_floor 7 12 newGame (by decide) (by decide)
  ⟨(h.1 (by decide)).1, (h.2.1 (by decide)).1, (h.1 (by decide)).2⟩

/-- C10 fails on the code: when the terminal-size query fails, the fallback
terminal size is 44 columns and 28 rows, one row short of the 29 rows the ideal
board needs, so the board is 40x19, `sizeWarning` is true and the warning
message is shown. -/
theorem updateBoardDimensions_query_failed (s : Game) :
    (updateBoardDimensions none s).terminalWidth = 44 ∧
    (updateBoardDimensions none s).terminalHeight = 28 ∧
    (updateBoardDimensions none s).boardWidth = 40 ∧
    (updateBoardDimensions none s).boardHeight = 19 ∧
    (updateBoardDimensions none s).sizeWarning = true ∧
    (updateBoardDimensions none s).sizeWarningMessage =
      "Arena scaled to 40x19 (ideal 40x20)" :=
  ⟨rfl, rfl, rfl, rfl, rfl, rfl⟩

/-! ## Keyboard -/

theorem processInput_polledKey (keyboard : Option (List Char)) (s : Game) :
    processInput keyboard s =
      match polledKey keyboard with
      | none => s
      | some key => applyKey key s := by
  unfold processInput polledKey
  cases keyboard with
  | none => rfl
  | some pending =>
    simp only
    cases pollKey pending with
    | none => rfl
    | some kr => rfl

/-- The turn keys act on the two direction fields only: a turn `T` is ignored
when the current direction is the opposite of `T`, and otherwise it is stored
in `nextDirection`, and in `direction` too when that was `NONE`. -/
theorem applyKey_turn (key : Char) (T : Direction) (s : Game)
    (hturn : turnIntent key = some T) :
    applyKey key s =
      if s.direction = opposite T then s
      else { s with
        nextDirection := T
        direction := if s.direction = Direction.NONE then T else s.direction } := by
  unfold turnIntent at hturn
  unfold applyKey
  split_ifs at hturn with h1 h2 h3 h4
  · injection hturn with hturn
    subst hturn
    rw [if_pos h1]
    cases hd : s.direction <;> simp [opposite]
  · injection hturn with hturn
    subst hturn
    rw [if_neg h1, if_pos h2]
    cases hd : s.direction <;> simp [opposite]
  · injection hturn with hturn
    subst hturn
    rw [if_neg h1, if_neg h2, if_pos h3]
    cases hd : s.direction <;> simp [opposite]
  · injection hturn with hturn
    subst hturn
    rw [if_neg h1, if_neg h2, if_neg h3, if_pos h4]
    cases hd : s.direction <;> simp [opposite]

/-- A key that is no turn key, not the space and not `q`/`Q` changes nothing. -/
theorem applyKey_other (key : Char) (s : Game) (hturn : turnIntent key = none)
    (hspace : key ≠ ' ') (hq : key ≠ 'q' ∧ key ≠ 'Q') : applyKey key s = s := by
  unfold turnIntent at hturn
  unfold applyKey
  split_ifs at hturn with h1 h2 h3 h4
  rw [if_neg h1, if_neg h2, if_neg h3, if_neg h4, if_neg hspace,
    if_neg (by rintro (h | h); exact hq.1 h; exact hq.2 h)]

/-- C11: arrow-key decoding.  For every game state, a `processInput` call that
finds the bytes ESC, `[` and `A` (resp. `B`, `C`, `D`) pending returns exactly
the state returned by a call that finds the byte `w` (resp. `s`, `d`, `a`)
pending, whatever bytes follow. -/
theorem processInput_arrow (s : Game) (rest rest' : List Char) :
    processInput (some (ESC :: '[' :: 'A' :: rest)) s = processInput (some ('w' :: rest')) s ∧
    processInput (some (ESC :: '[' :: 'B' :: rest)) s = processInput (some ('s' :: rest')) s ∧
    processInput (some (ESC :: '[' :: 'C' :: rest)) s = processInput (some ('d' :: rest')) s ∧
    processInput (some (ESC :: '[' :: 'D' :: rest)) s = processInput (some ('a' :: rest')) s :=
  ⟨rfl, rfl, rfl, rfl⟩

theorem sessionAfterRight_reachable : Reachable countingRnd sessionAfterRight :=
  Reachable.iterate (some ['d']) 1 sessionStart sessionAfterRight
    (Reachable.start (some (80, 40)) 1 newGame sessionStart rfl) rfl rfl

theorem sessionPaused_reachable : Reachable countingRnd sessionPaused :=
  Reachable.iterate (some [' ']) 0 sessionAfterRight sessionPaused
    sessionAfterRight_reachable rfl rfl

/-- C12 as stated fails: in the state reached after one move to the right
(direction `RIGHT`), the key `a` asks for the opposite turn `LEFT`, and after
`processInput` the pending direction is still `RIGHT`, not `LEFT`. -/
theorem processInput_reverse_counterexample :
    Reachable countingRnd sessionAfterRight ∧
    sessionAfterRight.direction = Direction.RIGHT ∧
    turnIntent 'a' = some (opposite Direction.RIGHT) ∧
    (processInput (some ['a']) sessionAfterRight).nextDirection = Direction.RIGHT ∧
    (processInput (some ['a']) sessionAfterRight).nextDirection ≠
      opposite Direction.RIGHT :=
  ⟨sessionAfterRight_reachable, by decide⟩

/-- C12 amended: for `D` among `UP`, `DOWN`, `LEFT`, `RIGHT`, a state with
`direction = D` and a polled key that asks for the turn `opposite D`,
`processInput` returns the state unchanged: the input stage itself ignores the
reverse turn, `nextDirection` keeps the value it had. -/
theorem processInput_reverse_ignored (keyboard : Option (List Char)) (key : Char)
    (D : Direction) (s : Game) (hD : D ≠ Direction.NONE) (hdir : s.direction = D)
    (hkey : polledKey keyboard = some key) (hturn : turnIntent key = some (opposite D)) :
    processInput keyboard s = s ∧
      (processInput keyboard s).nextDirection = s.nextDirection ∧
      (processInput keyboard s).direction = D := by
  have hopp : opposite (opposite D) = D := by cases D <;> rfl
  have hs : processInput keyboard s = s := by
    rw [processInput_polledKey, hkey]
    simp only
    rw [applyKey_turn key (opposite D) s hturn, hopp, if_pos hdir]
  rw [hs]
  exact ⟨rfl, rfl, hdir⟩

/-- Witness for C12 amended: moving right, the left arrow (ESC `[` `D`) is
ignored. -/
theorem processInput_reverse_ignored_witness :
    processInput (some [ESC, '[', 'D']) sessionAfterRight = sessionAfterRight ∧
      (processInput (some [ESC, '[', 'D']) sessionAfterRight).nextDirection =
        sessionAfterRight.nextDirection ∧
      (processInput (some [ESC, '[', 'D']) sessionAfterRight).direction = Direction.RIGHT :=
  processInput_reverse_ignored (some [ESC, '[', 'D']) 'a' Direction.RIGHT sessionAfterRight
    (by decide) rfl rfl rfl

/-- C13 as stated fails: in the paused state `sessionPaused` (reached by the
keys `d`, then space; direction and pending direction `RIGHT`) one loop iteration with the key `w` pending returns
a state whose pending direction is `UP`. -/
theorem paused_turn_counterexample :
    Reachable countingRnd sessionPaused ∧
    sessionPaused.paused = true ∧ sessionPaused.nextDirection = Direction.RIGHT ∧
    loopIteration (some ['w']) countingRnd 0 sessionPaused =
      Except.ok { sessionPaused with nextDirection := Direction.UP } ∧
    ¬ ∃ s', loopIteration (some ['w']) countingRnd 0 sessionPaused = Except.ok s' ∧
      s'.nextDirection = sessionPaused.nextDirection := by
  refine ⟨sessionPaused_reachable, rfl, rfl, rfl, ?_⟩
  rintro ⟨s', hs', hnext⟩
  have hrun : loopIteration (some ['w']) countingRnd 0 sessionPaused =
      Except.ok { sessionPaused with nextDirection := Direction.UP } := rfl
  rw [hrun] at hs'
  injection hs' with hs'
  rw [← hs'] at hnext
  exact absurd hnext (by decide)

/-- C13 amended: in a paused state, one loop iteration whose polled key (if
any) is not the space, `q` or `Q` returns, skips the tick and leaves snake,
food, score, speed, `gameOver` and `paused` unchanged.  A key that is no turn
key leaves the whole state unchanged; a turn key `T` still acts on the
direction fields exactly as when not paused: ignored when the direction is the
opposite of `T`, otherwise stored in `nextDirection` (and in `direction` when
that was `NONE`). -/
theorem paused_iteration (keyboard : Option (List Char)) (rnd : Nat → Nat) (fuel : Nat)
    (s : Game) (hpaused : s.paused = true)
    (hkey : ∀ key, polledKey keyboard = some key → key ≠ ' ' ∧ key ≠ 'q' ∧ key ≠ 'Q') :
    ∃ s', loopIteration keyboard rnd fuel s = Except.ok s' ∧
      s' = processInput keyboard s ∧
      s'.snake = s.snake ∧ s'.food = s.food ∧ s'.score = s.score ∧ s'.speed = s.speed ∧
      s'.gameOver = s.gameOver ∧ s'.paused = s.paused ∧
      (polledKey keyboard = none → s' = s) ∧
      (∀ key, polledKey keyboard = some key → turnIntent key = none → s' = s) ∧
      (∀ key T, polledKey keyboard = some key → turnIntent key = some T →
        s' = if s.direction = opposite T then s
          else { s with
            nextDirection := T
            direction := if s.direction = Direction.NONE then T else s.direction }) := by
  have hcases : processInput keyboard s = s ∨
      ∃ T, processInput keyboard s =
        { s with
          nextDirection := T
          direction := if s.direction = Direction.NONE then T else s.direction } := by
    rw [processInput_polledKey]
    cases hk : polledKey keyboard with
    | none => exact Or.inl rfl
    | some key =>
      simp only
      obtain ⟨hsp, hq1, hq2⟩ := hkey key hk
      cases ht : turnIntent key with
      | none => exact Or.inl (applyKey_other key s ht hsp ⟨hq1, hq2⟩)
      | some T =>
        rw [applyKey_turn key T s ht]
        split
        · exact Or.inl rfl
        · exact Or.inr ⟨T, rfl⟩
  have hp : (processInput keyboard s).paused = true := by
    rcases hcases with h | ⟨T, h⟩ <;> rw [h] <;> exact hpaused
  refine ⟨processInput keyboard s, ?_, rfl, ?_, ?_, ?_, ?_, ?_, ?_, ?_, ?_, ?_⟩
  · unfold loopIteration
    simp only [hp, if_true]
  · exact (processInput_frame keyboard s).1
  · exact (processInput_frame keyboard s).2.1
  · exact (processInput_frame keyboard s).2.2.1
  · exact (processInput_frame keyboard s).2.2.2.1
  · rcases hcases with h | ⟨T, h⟩ <;> rw [h]
  · rcases hcases with h | ⟨T, h⟩ <;> rw [h]
  · intro hk
    rw [processInput_polledKey, hk]
  · intro key hk ht
    obtain ⟨hsp, hq1, hq2⟩ := hkey key hk
    rw [processInput_polledKey, hk]
    exact applyKey_other key s ht hsp ⟨hq1, hq2⟩
  · intro key T hk ht
    rw [processInput_polledKey, hk]
    exact applyKey_turn key T s ht

/-- Witness for C13 amended: paused while moving right, the key `x` changes
nothing and the key `w` only queues the turn up. -/
theorem paused_iteration_witness :
    loopIteration (some ['x']) countingRnd 0 sessionPaused = Except.ok sessionPaused ∧
    ∃ s', loopIteration (some ['w']) countingRnd 0 sessionPaused = Except.ok s' ∧
      s'.snake = sessionPaused.snake ∧ s'.paused = true ∧
      s'.nextDirection = Direction.UP := by
  obtain ⟨s1, hrun1, -, -, -, -, -, -, -, -, hother, -⟩ :=
    paused_iteration (some ['x']) countingRnd 0 sessionPaused rfl
      (by
        intro key hk
        have hx : key = 'x' := by
          have h : polledKey (some ['x']) = some 'x' := rfl
          rw [h] at hk
          injection hk with hk
          exact hk.symm
        subst hx
        decide)
  obtain ⟨s2, hrun2, -, hsnake, -, -, -, -, hp, -, -, hturn⟩ :=
    paused_iteration (some ['w']) countingRnd 0 sessionPaused rfl
      (by
        intro key hk
        have hw : key = 'w' := by
          have h : polledKey (some ['w']) = some 'w' := rfl
          rw [h] at hk
          injection hk with hk
          exact hk.symm
        subst hw
        decide)
  refine ⟨?_, s2, hrun2, hsnake, hp, ?_⟩
  · rw [hrun1, hother 'x' rfl rfl]
  · rw [hturn 'w' Direction.UP rfl rfl]
    rfl

/-! ## Session start -/

theorem updateBoardDimensions_none (s : Game) :
    updateBoardDimensions none s = updateBoardDimensions (some (44, 28)) s := rfl

/-- The board `updateBoardDimensions` computes is at least 1x1 and at most
40x20. -/
theorem updateBoardDimensions_bounds (query : Option (Int × Int)) (s : Game) :
    1 ≤ (updateBoardDimensions query s).boardWidth ∧
    (updateBoardDimensions query s).boardWidth ≤ 40 ∧
    1 ≤ (updateBoardDimensions query s).boardHeight ∧
    (updateBoardDimensions query s).boardHeight ≤ 20 := by
  cases query with
  | none =>
    rw [updateBoardDimensions_none, updateBoardDimensions_width, updateBoardDimensions_height]
    decide
  | some size =>
    obtain ⟨tw, th⟩ := size
    rw [updateBoardDimensions_width, updateBoardDimensions_height]
    split_ifs <;> omega

theorem cellAt_congr (rnd : Nat → Nat) (a b : Game) (k : Nat)
    (hcalls : a.randCalls = b.randCalls) (hw : a.boardWidth = b.boardWidth)
    (hh : a.boardHeight = b.boardHeight) : cellAt rnd a k = cellAt rnd b k := by
  simp only [cellAt, drawCell, hcalls, hw, hh]

theorem initialSnake_layout (w h : Int) (hw : 1 ≤ w) (hh : 1 ≤ h) :
    initialSnake w h = layout w h := by
  unfold initialSnake layout
  rw [Int.tdiv_eq_ediv (by omega) (by decide), Int.tdiv_eq_ediv (by omega) (by decide)]

theorem layout_length (w h : Int) (hw : 1 ≤ w) : ((layout w h).length : Int) = min 3 w := by
  unfold layout
  split_ifs with h1 h2 h2
  · simp only [List.length_append, List.length_cons, List.length_nil]
    norm_num
    omega
  · simp only [List.length_append, List.length_cons, List.length_nil]
    norm_num
    omega
  · omega
  · simp only [List.length_append, List.length_cons, List.length_nil]
    norm_num
    omega

/-- What a returning `reset` returns: the freshly laid out state, with either
`gameOver` set (no room for food) or a food cell off the snake. -/
theorem reset_ok (query : Option (Int × Int)) (rnd : Nat → Nat) (fuel : Nat) (s0 s : Game)
    (h : reset query rnd fuel s0 = Except.ok s) :
    s.snake = initialSnake (updateBoardDimensions query s0).boardWidth
        (updateBoardDimensions query s0).boardHeight ∧
      s.boardWidth = (updateBoardDimensions query s0).boardWidth ∧
      s.boardHeight = (updateBoardDimensions query s0).boardHeight ∧
      s.direction = Direction.NONE ∧ s.nextDirection = Direction.NONE ∧
      s.score = 0 ∧ s.speed = 150 ∧ s.paused = false := by
  unfold reset at h
  rcases spawnFood_ok rnd fuel _ s h with h' | ⟨food, n, h', _⟩
  · rw [h']; exact ⟨rfl, rfl, rfl, rfl, rfl, rfl, rfl, rfl⟩
  · rw [h']; exact ⟨rfl, rfl, rfl, rfl, rfl, rfl, rfl, rfl⟩

/-- C14 fails on the code: on a terminal of 7 columns and 11 rows `reset()`
returns the state `narrowStart` with `gameOver` false, a board of width 3 and
the snake (1,1),(0,1),(0,1), whose last two segments are equal. -/
theorem reset_width3_duplicate :
    reset (some (7, 11)) countingRnd 2 newGame = Except.ok narrowStart ∧
    Reachable countingRnd narrowStart ∧
    narrowStart.gameOver = false ∧ narrowStart.boardWidth = 3 ∧
    narrowStart.snake = [{ x := 1, y := 1 }, { x := 0, y := 1 }, { x := 0, y := 1 }] ∧
    ¬ narrowStart.snake.Nodup :=
  ⟨rfl, Reachable.start (some (7, 11)) 2 newGame narrowStart rfl, rfl, rfl, rfl, by decide⟩

/-- C15: reset layout.  For every board `(w, h)` with `w >= 1` and `h >= 1`,
the snake `reset()` builds is `(w/2, h/2)`, then `(max(0, w/2 - 1), h/2)` when
`w > 1`, then `(max(0, w/2 - 2), h/2)` when `w > 2`, of length `min(3, w)`.
When `(w, h)` is the board computed for the session, `reset` does not fault on
the snake, every state it returns has that board and that snake, `direction`
and `nextDirection` `NONE`, score 0, speed 150 and `paused` false, and it does
return as soon as the board is full or one of the first `fuel` cells drawn is
off the snake. -/
theorem reset_layout (w h : Int) (hw : 1 ≤ w) (hh : 1 ≤ h) (query : Option (Int × Int))
    (rnd : Nat → Nat) (fuel : Nat) (s0 : Game) :
    initialSnake w h = layout w h ∧ ((layout w h).length : Int) = min 3 w ∧
    ((updateBoardDimensions query s0).boardWidth = w →
      (updateBoardDimensions query s0).boardHeight = h →
      reset query rnd fuel s0 ≠ Except.error Fault.emptySnake ∧
      (∀ s, reset query rnd fuel s0 = Except.ok s →
        s.boardWidth = w ∧ s.boardHeight = h ∧ s.snake = layout w h ∧
        (s.snake.length : Int) = min 3 w ∧
        s.direction = Direction.NONE ∧ s.nextDirection = Direction.NONE ∧
        s.score = 0 ∧ s.speed = 150 ∧ s.paused = false) ∧
      ((((layout w h).length : Int) ≥ w * h ∨
          ∃ k, k < fuel ∧ cellAt rnd (updateBoardDimensions query s0) k ∉ layout w h) →
        ∃ s, reset query rnd fuel s0 = Except.ok s)) := by
  refine ⟨initialSnake_layout w h hw hh, layout_length w h hw, ?_⟩
  intro hbw hbh
  refine ⟨?_, ?_, ?_⟩
  · unfold reset
    exact spawnFood_ne_emptySnake rnd fuel _
  · intro s hs
    obtain ⟨hsn, hw', hh', hd, hn, hsc, hsp, hp⟩ := reset_ok query rnd fuel s0 s hs
    rw [hbw, hbh, initialSnake_layout w h hw hh] at hsn
    refine ⟨hw'.trans hbw, hh'.trans hbh, hsn, ?_, hd, hn, hsc, hsp, hp⟩
    rw [hsn]
    exact layout_length w h hw
  · intro hret
    unfold reset
    apply spawnFood_returns
    simp only [hbw, hbh, initialSnake_layout w h hw hh]
    rcases hret with hfull | ⟨k, hk, hcell⟩
    · exact Or.inl hfull
    · refine Or.inr ⟨k, hk, ?_⟩
      have hcongr := cellAt_congr rnd (updateBoardDimensions query s0)
        { updateBoardDimensions query s0 with
          snake := layout w h
          direction := Direction.NONE
          nextDirection := Direction.NONE
          gameOver := false
          paused := false
          score := 0
          speed := INITIAL_SPEED
          boardWidth := w
          boardHeight := h } k rfl hbw hbh
      rw [← hcongr]
      exact hcell

/-- Witness for C15: on an 80x40 terminal the board is 40x20 and `reset()`
returns the state `sessionStart` with the snake (20,10),(19,10),(18,10). -/
theorem reset_layout_witness :
    layout 40 20 = [{ x := 20, y := 10 }, { x := 19, y := 10 }, { x := 18, y := 10 }] ∧
    ∃ s, reset (some (80, 40)) countingRnd 1 newGame = Except.ok s ∧
      s.snake = layout 40 20 ∧ s.direction = Direction.NONE ∧
      s.nextDirection = Direction.NONE ∧ s.score = 0 ∧ s.speed = 150 ∧ s.paused = false := by
  obtain ⟨-, -, hreset⟩ :=
    reset_layout 40 20 (by decide) (by decide) (some (80, 40)) countingRnd 1 newGame
  obtain ⟨-, hok, hret⟩ := hreset rfl rfl
  obtain ⟨s, hs⟩ := hret (Or.inr ⟨0, by decide, by decide⟩)
  obtain ⟨-, -, hsn, -, hd, hn, hsc, hsp, hp⟩ := hok s hs
  exact ⟨by decide, s, hs, hsn, hd, hn, hsc, hsp, hp⟩

/-- A tick whose committed direction is `D`, not `NONE`, on a non-empty snake:
it does not fault on the snake, every state it returns has direction `D`, it
ends the game without touching the snake when `head + delta D` is outside the
board or on a segment, and otherwise every state it returns has
`head + delta D` as head, and it returns when that cell is not the food. -/
theorem moveSnake_along (rnd : Nat → Nat) (fuel : Nat) (s : Game) (D : Direction)
    (head : Point) (tail : List Point) (hsnake : s.snake = head :: tail)
    (hD : D ≠ Direction.NONE) (hc : commitDirection s.direction s.nextDirection = D) :
    moveSnake rnd fuel s ≠ Except.error Fault.emptySnake ∧
    (∀ s', moveSnake rnd fuel s = Except.ok s' → s'.direction = D) ∧
    (hitsWall s (shift head D) ∨ shift head D ∈ s.snake →
      moveSnake rnd fuel s = Except.ok { s with direction := D, gameOver := true }) ∧
    (¬ hitsWall s (shift head D) → shift head D ∉ s.snake →
      (∀ s', moveSnake rnd fuel s = Except.ok s' → s'.snake.head? = some (shift head D)) ∧
      (shift head D ≠ s.food → ∃ s', moveSnake rnd fuel s = Except.ok s')) := by
  have hd : commitDirection s.direction s.nextDirection ≠ Direction.NONE := by
    rw [hc]; exact hD
  rw [moveSnake_unfold rnd fuel s head tail hsnake hd]
  simp only [hc]
  refine ⟨?_, ?_, ?_, ?_⟩
  · split
    · simp
    · split
      · simp
      · split
        · exact spawnFood_ne_emptySnake rnd fuel _
        · simp
  · intro s' hs'
    split at hs'
    · injection hs' with hs'; rw [← hs']
    · split at hs'
      · injection hs' with hs'; rw [← hs']
      · split at hs'
        · rcases spawnFood_ok rnd fuel _ s' hs' with h | ⟨food, n, h, _⟩
          · rw [h]
          · rw [h]
        · injection hs' with hs'; rw [← hs']
  · intro hcol
    rcases hcol with hw | hm
    · rw [if_pos hw]
    · by_cases hw : hitsWall s (shift head D)
      · rw [if_pos hw]
      · rw [if_neg hw, if_pos hm]
  · intro hw hm
    rw [if_neg hw, if_neg hm]
    refine ⟨?_, ?_⟩
    · intro s' hs'
      split at hs'
      · rcases spawnFood_ok rnd fuel _ s' hs' with h | ⟨food, n, h, _⟩
        · rw [h]; rfl
        · rw [h]; rfl
      · injection hs' with hs'
        rw [← hs']
        simp [hsnake]
    · intro hne
      rw [if_neg hne]
      exact ⟨_, rfl⟩

theorem turnIntent_ne_none (key : Char) (T : Direction) (hturn : turnIntent key = some T) :
    T ≠ Direction.NONE := by
  unfold turnIntent at hturn
  split_ifs at hturn <;> injection hturn with hturn <;> subst hturn <;> decide

theorem commitDirection_same (T : Direction) : commitDirection T T = T := by
  unfold commitDirection
  split_ifs <;> rfl

/-- C16 as stated fails: in the state `reset()` returns on the 80x40 terminal
(direction `NONE`, snake (20,10),(19,10),(18,10)) the key `a` asks for the turn
`LEFT`; `processInput` sets both directions to `LEFT`, but the tick that
follows does not move the head one cell to the left: whatever the fuel it
returns with `gameOver` set and the snake unchanged, the head still at (20,10)
and not at (19,10), which is the second segment. -/
theorem first_key_left_counterexample :
    Reachable countingRnd sessionStart ∧
    sessionStart.direction = Direction.NONE ∧
    turnIntent 'a' = some Direction.LEFT ∧
    (processInput (some ['a']) sessionStart).direction = Direction.LEFT ∧
    (processInput (some ['a']) sessionStart).nextDirection = Direction.LEFT ∧
    sessionStart.snake.head? = some { x := 20, y := 10 } ∧
    shift { x := 20, y := 10 } Direction.LEFT = { x := 19, y := 10 } ∧
    (∀ fuel : Nat,
      moveSnake countingRnd fuel (processInput (some ['a']) sessionStart) =
        Except.ok { sessionStart with
          direction := Direction.LEFT
          nextDirection := Direction.LEFT
          gameOver := true }) ∧
    ¬ ∃ (fuel : Nat) (s' : Game),
      moveSnake countingRnd fuel (processInput (some ['a']) sessionStart) = Except.ok s' ∧
        s'.snake.head? = some (shift { x := 20, y := 10 } Direction.LEFT) := by
  have hrun : ∀ fuel : Nat,
      moveSnake countingRnd fuel (processInput (some ['a']) sessionStart) =
        Except.ok { sessionStart with
          direction := Direction.LEFT
          nextDirection := Direction.LEFT
          gameOver := true } := fun _ => rfl
  refine ⟨Reachable.start (some (80, 40)) 1 newGame sessionStart rfl, rfl, rfl, rfl, rfl, rfl,
    rfl, hrun, ?_⟩
  rintro ⟨fuel, s', hs', hhead⟩
  rw [hrun fuel] at hs'
  injection hs' with hs'
  rw [← hs'] at hhead
  exact absurd hhead (by decide)

/-- C16 amended: the first key snaps the direction.  In a state with
`direction = NONE`, when the polled key asks for the turn `T`, `processInput`
sets both `direction` and `nextDirection` to `T`.  The tick that follows (on a
non-empty snake) commits `T` and plays along `T`: every state it returns has
direction `T`; when `head + delta T` is inside the board and on no segment,
every state it returns has `head + delta T` as head, and the tick returns when
that cell is not the food; when `head + delta T` is outside the board or on a
segment the tick returns with `gameOver` set and the snake unchanged, so the
head does not move. -/
theorem first_key_snaps (keyboard : Option (List Char)) (key : Char) (T : Direction)
    (rnd : Nat → Nat) (fuel : Nat) (s : Game) (head : Point) (tail : List Point)
    (hdir : s.direction = Direction.NONE) (hkey : polledKey keyboard = some key)
    (hturn : turnIntent key = some T) (hsnake : s.snake = head :: tail) :
    (processInput keyboard s).direction = T ∧ (processInput keyboard s).nextDirection = T ∧
    moveSnake rnd fuel (processInput keyboard s) ≠ Except.error Fault.emptySnake ∧
    (∀ s', moveSnake rnd fuel (processInput keyboard s) = Except.ok s' → s'.direction = T) ∧
    (¬ hitsWall s (shift head T) → shift head T ∉ s.snake →
      (∀ s', moveSnake rnd fuel (processInput keyboard s) = Except.ok s' →
        s'.snake.head? = some (shift head T)) ∧
      (shift head T ≠ s.food →
        ∃ s', moveSnake rnd fuel (processInput keyboard s) = Except.ok s')) ∧
    (hitsWall s (shift head T) ∨ shift head T ∈ s.snake →
      ∃ s', moveSnake rnd fuel (processInput keyboard s) = Except.ok s' ∧
        s'.gameOver = true ∧ s'.snake = s.snake) := by
  have hT : T ≠ Direction.NONE := turnIntent_ne_none key T hturn
  have hopp : Direction.NONE ≠ opposite T := by
    cases T <;> simp [opposite] at hT ⊢
  have hs1 : processInput keyboard s =
      { s with nextDirection := T, direction := T } := by
    rw [processInput_polledKey, hkey]
    simp only
    rw [applyKey_turn key T s hturn, hdir, if_neg hopp, if_pos rfl]
  rw [hs1]
  obtain ⟨h1, h2, h3, h4⟩ := moveSnake_along rnd fuel { s with nextDirection := T, direction := T }
    T head tail hsnake hT (commitDirection_same T)
  refine ⟨rfl, rfl, h1, h2, h4, ?_⟩
  intro hcol
  exact ⟨_, h3 hcol, rfl, rfl⟩

/-- Witness for C16 amended: in the state `reset()` returns on the 80x40 terminal the
right arrow sets both directions to `RIGHT` and the tick moves the head from
(20,10) to (21,10). -/
theorem first_key_snaps_witness :
    (processInput (some [ESC, '[', 'C']) sessionStart).direction = Direction.RIGHT ∧
    (processInput (some [ESC, '[', 'C']) sessionStart).nextDirection = Direction.RIGHT ∧
    ∃ s', moveSnake countingRnd 0 (processInput (some [ESC, '[', 'C']) sessionStart) =
        Except.ok s' ∧ s'.snake.head? = some { x := 21, y := 10 } := by
  obtain ⟨hd, hn, -, -, hmove, -⟩ :=
    first_key_snaps (some [ESC, '[', 'C']) 'd' Direction.RIGHT countingRnd 0 sessionStart
      { x := 20, y := 10 } [{ x := 19, y := 10 }, { x := 18, y := 10 }] rfl rfl rfl rfl
  obtain ⟨hhead, hret⟩ := hmove (by decide) (by decide)
  obtain ⟨s', hs'⟩ := hret (by decide)
  exact ⟨hd, hn, s', hs', hhead s' hs'⟩

/-! ## Termination of food placement -/

/-- A returning food loop stops at the first drawn cell that is off the snake. -/
theorem spawnFoodLoop_ok_cell (rnd : Nat → Nat) (fuel : Nat) (s s' : Game)
    (h : spawnFoodLoop rnd fuel s = Except.ok s') :
    ∃ j, j < fuel ∧
      s' = { s with food := cellAt rnd s j, randCalls := s.randCalls + 2 * (j + 1) } ∧
      cellAt rnd s j ∉ s.snake ∧ ∀ i, i < j → cellAt rnd s i ∈ s.snake := by
  induction fuel generalizing s with
  | zero => simp [spawnFoodLoop] at h
  | succ fuel ih =>
    simp only [spawnFoodLoop] at h
    split at h
    · rename_i hocc
      obtain ⟨j, hj, hs', hfree, hbefore⟩ :=
        ih { s with food := drawCell rnd s, randCalls := s.randCalls + 2 } h
      rw [← cellAt_succ] at hs' hfree
      refine ⟨j + 1, by omega, ?_, hfree, ?_⟩
      · rw [hs']
        have e : s.randCalls + 2 + 2 * (j + 1) = s.randCalls + 2 * (j + 1 + 1) := by omega
        simp only [e]
      · intro i hi
        cases i with
        | zero => exact hocc
        | succ i =>
          rw [cellAt_succ]
          exact hbefore i (by omega)
    · rename_i hfree
      injection h with h
      refine ⟨0, by omega, h.symm, hfree, ?_⟩
      intro i hi
      omega

/-- A food loop that only ever draws occupied cells uses up any fuel. -/
theorem spawnFoodLoop_stuck (rnd : Nat → Nat) (fuel : Nat) (s : Game)
    (hall : ∀ k, cellAt rnd s k ∈ s.snake) :
    spawnFoodLoop rnd fuel s = Except.error Fault.outOfFuel := by
  induction fuel generalizing s with
  | zero => rfl
  | succ fuel ih =>
    simp only [spawnFoodLoop]
    have h0 : drawCell rnd s ∈ s.snake := hall 0
    rw [if_pos h0]
    apply ih
    intro k
    have h := hall (k + 1)
    rw [cellAt_succ] at h
    exact h

/-- C17 as stated fails: on the 10x10 board with the snake (2,0),(1,0),(0,0)
(three segments, all inside the board, 97 cells free) and a random source that
always returns 0, every execution of the loop body draws the occupied cell
(0,0): whatever the fuel, `spawnFood` is still looping when it is used up. -/
theorem spawnFood_never_halts_counterexample :
    (scenarioCorner.snake.length : Int) < scenarioCorner.boardWidth * scenarioCorner.boardHeight ∧
    (∀ p ∈ scenarioCorner.snake, ¬ hitsWall scenarioCorner p) ∧
    (∀ k : Nat, cellAt zeroRnd scenarioCorner k = { x := 0, y := 0 }) ∧
    ∀ fuel : Nat, spawnFood zeroRnd fuel scenarioCorner = Except.error Fault.outOfFuel := by
  refine ⟨by decide, by decide, fun k => rfl, ?_⟩
  intro fuel
  unfold spawnFood
  rw [if_neg (by decide)]
  apply spawnFoodLoop_stuck
  intro k
  have hk : cellAt zeroRnd scenarioCorner k = { x := 0, y := 0 } := rfl
  rw [hk]
  decide

/-- C17 amended: on a board of positive width and height, when the snake has
fewer than `boardWidth * boardHeight` segments and the `k`-th cell the random
source makes the loop draw (counted from 0) is off the snake, `spawnFood`
halts for every fuel above `k`: after `j + 1 <= k + 1` executions of the loop
body, that is `2 * (j + 1)` calls of `rand()`, with the food on the `j`-th
drawn cell, which is inside the board and on no snake segment, and nothing
else changed. -/
theorem spawnFood_halts (rnd : Nat → Nat) (s : Game) (k fuel : Nat)
    (hw : 0 < s.boardWidth) (hh : 0 < s.boardHeight)
    (hroom : (s.snake.length : Int) < s.boardWidth * s.boardHeight)
    (hfree : cellAt rnd s k ∉ s.snake) (hfuel : k < fuel) :
    ∃ s' j, spawnFood rnd fuel s = Except.ok s' ∧ j ≤ k ∧
      s' = { s with food := cellAt rnd s j, randCalls := s.randCalls + 2 * (j + 1) } ∧
      s'.food ∉ s'.snake ∧
      0 ≤ s'.food.x ∧ s'.food.x < s'.boardWidth ∧
      0 ≤ s'.food.y ∧ s'.food.y < s'.boardHeight := by
  have hnot : ¬ (s.snake.length : Int) ≥ s.boardWidth * s.boardHeight := not_le.mpr hroom
  obtain ⟨s', hs'⟩ := spawnFoodLoop_returns rnd k s fuel hfuel hfree
  obtain ⟨j, _, hstate, hoff, hbefore⟩ := spawnFoodLoop_ok_cell rnd fuel s s' hs'
  have hjk : j ≤ k := by
    by_contra hlt
    exact hfree (hbefore k (by omega))
  refine ⟨s', j, ?_, hjk, hstate, ?_, ?_, ?_, ?_, ?_⟩
  · unfold spawnFood
    rw [if_neg hnot]
    exact hs'
  · rw [hstate]; exact hoff
  · rw [hstate]
    exact Int.tmod_nonneg _ (Int.ofNat_nonneg _)
  · rw [hstate]
    exact Int.tmod_lt_of_pos _ hw
  · rw [hstate]
    exact Int.tmod_nonneg _ (Int.ofNat_nonneg _)
  · rw [hstate]
    exact Int.tmod_lt_of_pos _ hh

/-- Witness for C17 amended: in the corner scenario with the counting random
source the first draw (0,1) is free and the loop halts after one execution of
its body. -/
theorem spawnFood_halts_witness :
    ∃ s' j, spawnFood countingRnd 1 scenarioCorner = Except.ok s' ∧ j ≤ 0 ∧
      s' = { scenarioCorner with
        food := cellAt countingRnd scenarioCorner j
        randCalls := scenarioCorner.randCalls + 2 * (j + 1) } ∧
      s'.food ∉ s'.snake ∧
      0 ≤ s'.food.x ∧ s'.food.x < s'.boardWidth ∧
      0 ≤ s'.food.y ∧ s'.food.y < s'.boardHeight :=
  spawnFood_halts countingRnd scenarioCorner 0 1 (by decide) (by decide) (by decide)
    (by decide) (by decide)

/-- C18: closed form of the board size.  For every pair of integers
`(terminalWidth, terminalHeight)` the computed `boardWidth` is
`min(40, terminalWidth - 4)` when `terminalWidth - 4 >= 1` and 40 otherwise,
`boardHeight` is `min(20, terminalHeight - 9)` when `terminalHeight - 9 >= 1`
and 20 otherwise; for every outcome of the size query the board is at least
1x1 (so neither dimension is zero) and at most 40x20; and the conditions of the
two raise-to-minimum branches hold for no available size. -/
theorem board_closed_form (tw th : Int) (s : Game) :
    (updateBoardDimensions (some (tw, th)) s).boardWidth =
      (if tw - 4 ≥ 1 then min 40 (tw - 4) else 40) ∧
    (updateBoardDimensions (some (tw, th)) s).boardHeight =
      (if th - 9 ≥ 1 then min 20 (th - 9) else 20) ∧
    (∀ query : Option (Int × Int),
      1 ≤ (updateBoardDimensions query s).boardWidth ∧
      (updateBoardDimensions query s).boardWidth ≤ 40 ∧
      1 ≤ (updateBoardDimensions query s).boardHeight ∧
      (updateBoardDimensions query s).boardHeight ≤ 20 ∧
      (updateBoardDimensions query s).boardWidth ≠ 0 ∧
      (updateBoardDimensions query s).boardHeight ≠ 0) ∧
    (∀ availableWidth : Int,
      ¬ (min DEFAULT_WIDTH availableWidth < MIN_WIDTH ∧ availableWidth ≥ MIN_WIDTH)) ∧
    (∀ availableHeight : Int,
      ¬ (min DEFAULT_HEIGHT availableHeight < MIN_HEIGHT ∧ availableHeight ≥ MIN_HEIGHT)) := by
  refine ⟨updateBoardDimensions_width tw th s, updateBoardDimensions_height tw th s, ?_, ?_, ?_⟩
  · intro query
    obtain ⟨h1, h2, h3, h4⟩ := updateBoardDimensions_bounds query s
    exact ⟨h1, h2, h3, h4, by omega, by omega⟩
  · intro a
    simp only [DEFAULT_WIDTH, MIN_WIDTH]
    omega
  · intro a
    simp only [DEFAULT_HEIGHT, MIN_HEIGHT]
    omega

/-! ## Invariants of the play loop -/

/-- What a key can do to the state: nothing, toggle the pause, end the game,
or record a turn `T` that is not the opposite of the current direction. -/
theorem applyKey_cases (key : Char) (s : Game) :
    applyKey key s = s ∨ applyKey key s = { s with paused := !s.paused } ∨
      applyKey key s = { s with gameOver := true } ∨
      ∃ T, T ≠ Direction.NONE ∧ s.direction ≠ opposite T ∧
        applyKey key s =
          { s with
            nextDirection := T
            direction := if s.direction = Direction.NONE then T else s.direction } := by
  cases ht : turnIntent key with
  | some T =>
    rw [applyKey_turn key T s ht]
    by_cases hopp : s.direction = opposite T
    · left
      rw [if_pos hopp]
    · right; right; right
      rw [if_neg hopp]
      exact ⟨T, turnIntent_ne_none key T ht, hopp, rfl⟩
  | none =>
    by_cases hsp : key = ' '
    · right; left
      subst hsp
      rfl
    · by_cases hq : key = 'q' ∨ key = 'Q'
      · right; right; left
        rcases hq with hq | hq <;> subst hq <;> rfl
      · left
        exact applyKey_other key s ht hsp ⟨fun h => hq (Or.inl h), fun h => hq (Or.inr h)⟩

theorem processInput_cases (keyboard : Option (List Char)) (s : Game) :
    processInput keyboard s = s ∨ processInput keyboard s = { s with paused := !s.paused } ∨
      processInput keyboard s = { s with gameOver := true } ∨
      ∃ T, T ≠ Direction.NONE ∧ s.direction ≠ opposite T ∧
        processInput keyboard s =
          { s with
            nextDirection := T
            direction := if s.direction = Direction.NONE then T else s.direction } := by
  rw [processInput_polledKey]
  cases polledKey keyboard with
  | none => exact Or.inl rfl
  | some key => exact applyKey_cases key s

theorem directionPair_processInput (keyboard : Option (List Char)) (s : Game)
    (hinv : DirectionPair s) : DirectionPair (processInput keyboard s) := by
  rcases processInput_cases keyboard s with h | h | h | ⟨T, hT, hopp, h⟩
  · rw [h]; exact hinv
  · rw [h]; exact hinv
  · rw [h]; exact hinv
  · rw [h]
    unfold DirectionPair at hinv ⊢
    simp only
    cases hd : s.direction <;> cases T <;> simp_all [opposite]

theorem commitDirection_of_pair (s : Game) (hinv : DirectionPair s) :
    commitDirection s.direction s.nextDirection = s.nextDirection := by
  unfold DirectionPair at hinv
  unfold commitDirection
  cases hd : s.direction <;> cases hn : s.nextDirection <;> simp_all [opposite]

/-- What a returning tick leaves alone, and how it links length and score. -/
theorem moveSnake_frame (rnd : Nat → Nat) (fuel : Nat) (s s' : Game)
    (h : moveSnake rnd fuel s = Except.ok s') :
    s'.direction = commitDirection s.direction s.nextDirection ∧
      s'.nextDirection = s.nextDirection ∧ s'.boardWidth = s.boardWidth ∧
      s'.boardHeight = s.boardHeight ∧ s'.paused = s.paused ∧
      (s'.snake.length : Int) - s'.score = (s.snake.length : Int) - s.score ∧
      s.score ≤ s'.score := by
  obtain ⟨head, tail, hsnake, hcases⟩ := moveSnake_ok_cases rnd fuel s s' h
  rcases hcases with ⟨_, hs'⟩ | hs' | ⟨_, _, hs' | ⟨food, n, _, hs'⟩⟩ | ⟨_, _, hs'⟩
  · rw [hs']; exact ⟨rfl, rfl, rfl, rfl, rfl, rfl, le_refl _⟩
  · rw [hs']; exact ⟨rfl, rfl, rfl, rfl, rfl, rfl, le_refl _⟩
  · rw [hs']
    refine ⟨rfl, rfl, rfl, rfl, rfl, ?_, ?_⟩
    · simp only [List.length_cons]
      push_cast
      omega
    · show s.score ≤ s.score + 1
      omega
  · rw [hs']
    refine ⟨rfl, rfl, rfl, rfl, rfl, ?_, ?_⟩
    · simp only [List.length_cons]
      push_cast
      omega
    · show s.score ≤ s.score + 1
      omega
  · rw [hs']
    refine ⟨rfl, rfl, rfl, rfl, rfl, ?_, le_refl _⟩
    simp only [List.length_dropLast_cons]

theorem directionPair_moveSnake (rnd : Nat → Nat) (fuel : Nat) (s s' : Game)
    (hinv : DirectionPair s) (h : moveSnake rnd fuel s = Except.ok s') :
    DirectionPair s' ∧ s'.direction = s.nextDirection := by
  obtain ⟨hd, hn, _⟩ := moveSnake_frame rnd fuel s s' h
  rw [commitDirection_of_pair s hinv] at hd
  refine ⟨?_, hd⟩
  unfold DirectionPair
  rw [hd, hn]
  refine ⟨Iff.rfl, ?_⟩
  intro hne
  cases hnext : s.nextDirection <;> simp_all [opposite]

theorem reachable_directionPair (rnd : Nat → Nat) (s : Game) (hreach : Reachable rnd s) :
    DirectionPair s := by
  induction hreach with
  | start query fuel s0 s hreset =>
    obtain ⟨_, _, _, hd, hn, _⟩ := reset_ok query rnd fuel s0 s hreset
    unfold DirectionPair
    rw [hd, hn]
    exact ⟨Iff.rfl, fun h => absurd rfl h⟩
  | iterate keyboard fuel s s' _ _ hiter ih =>
    have h1 := directionPair_processInput keyboard s ih
    unfold loopIteration at hiter
    simp only at hiter
    split at hiter
    · injection hiter with hiter
      rw [← hiter]
      exact h1
    · exact (directionPair_moveSnake rnd fuel _ s' h1 hiter).1

/-- C19: direction-pair invariant.  In every state reachable from `reset()`,
`direction` is `NONE` exactly when `nextDirection` is, and for `D` among `UP`,
`DOWN`, `LEFT`, `RIGHT`, `direction = D` excludes `nextDirection = opposite D`;
so, whatever the keyboard holds, the direction commit of the next tick yields
the pending direction (the reversal guard rejects nothing), and every state
that tick returns has `direction` equal to the pending direction it found. -/
theorem direction_pair_invariant (rnd : Nat → Nat) (s : Game) (hreach : Reachable rnd s) :
    (s.direction = Direction.NONE ↔ s.nextDirection = Direction.NONE) ∧
    (∀ D, D ≠ Direction.NONE → s.direction = D → s.nextDirection ≠ opposite D) ∧
    (∀ keyboard : Option (List Char),
      commitDirection (processInput keyboard s).direction
          (processInput keyboard s).nextDirection =
        (processInput keyboard s).nextDirection ∧
      ∀ (fuel : Nat) (s' : Game),
        moveSnake rnd fuel (processInput keyboard s) = Except.ok s' →
        s'.direction = (processInput keyboard s).nextDirection ∧
        s'.nextDirection = (processInput keyboard s).nextDirection) := by
  have hinv := reachable_directionPair rnd s hreach
  refine ⟨hinv.1, ?_, ?_⟩
  · intro D hD hdir
    rw [← hdir]
    exact hinv.2 (by rw [hdir]; exact hD)
  · intro keyboard
    have h1 := directionPair_processInput keyboard s hinv
    refine ⟨commitDirection_of_pair _ h1, ?_⟩
    intro fuel s' hs'
    exact ⟨(directionPair_moveSnake rnd fuel _ s' h1 hs').2,
      (moveSnake_frame rnd fuel _ s' hs').2.1⟩

/-- Witness for C19: the state reached after `reset()` and one iteration with
the key `d` has both directions `RIGHT`, and with the key `w` pending the next
tick commits `UP`. -/
theorem direction_pair_invariant_witness :
    Reachable countingRnd sessionAfterRight ∧
    sessionAfterRight.direction = Direction.RIGHT ∧
    sessionAfterRight.nextDirection ≠ Direction.LEFT ∧
    commitDirection (processInput (some ['w']) sessionAfterRight).direction
        (processInput (some ['w']) sessionAfterRight).nextDirection = Direction.UP := by
  have hreach : Reachable countingRnd sessionAfterRight :=
    Reachable.iterate (some ['d']) 1 sessionStart sessionAfterRight
      (Reachable.start (some (80, 40)) 1 newGame sessionStart rfl) rfl rfl
  obtain ⟨_, hrev, hcommit⟩ := direction_pair_invariant countingRnd sessionAfterRight hreach
  refine ⟨hreach, rfl, hrev Direction.RIGHT (by decide) rfl, ?_⟩
  rw [(hcommit (some ['w'])).1]
  rfl

theorem moveSnake_ne_emptySnake (rnd : Nat → Nat) (fuel : Nat) (s : Game)
    (hsnake : s.snake ≠ []) : moveSnake rnd fuel s ≠ Except.error Fault.emptySnake := by
  cases hs : s.snake with
  | nil => exact absurd hs hsnake
  | cons head tail =>
    by_cases hd : commitDirection s.direction s.nextDirection = Direction.NONE
    · simp [moveSnake, hs, hd, projectHead]
    · exact (moveSnake_along rnd fuel s _ head tail hs hd rfl).1

/-- The board is at least 1x1, the length of the snake is `min(3, width)` plus
the score, and the score is not negative, in every reachable state. -/
theorem reachable_length (rnd : Nat → Nat) (s : Game) (hreach : Reachable rnd s) :
    1 ≤ s.boardWidth ∧ (s.snake.length : Int) = min 3 s.boardWidth + s.score ∧
      0 ≤ s.score := by
  induction hreach with
  | start query fuel s0 s hreset =>
    obtain ⟨hsn, hw, _, _, _, hsc, _⟩ := reset_ok query rnd fuel s0 s hreset
    obtain ⟨hw1, _, hh1, _⟩ := updateBoardDimensions_bounds query s0
    rw [initialSnake_layout _ _ hw1 hh1] at hsn
    rw [hsn, hw, hsc, layout_length _ _ hw1]
    exact ⟨hw1, by omega, le_refl _⟩
  | iterate keyboard fuel s s' _ _ hiter ih =>
    obtain ⟨hsn, _, hsc, _, hbw, _⟩ := processInput_frame keyboard s
    unfold loopIteration at hiter
    simp only at hiter
    split at hiter
    · injection hiter with hiter
      rw [← hiter, hsn, hsc, hbw]
      exact ih
    · obtain ⟨_, _, hbw', _, _, hlen, hmono⟩ := moveSnake_frame rnd fuel _ s' hiter
      rw [hsn, hsc] at hlen
      rw [hsc] at hmono
      rw [hbw', hbw]
      obtain ⟨h1, h2, h3⟩ := ih
      exact ⟨h1, by omega, by omega⟩

/-- C20: score-length invariant.  In every state reachable from `reset()`
(`gameOver` or not) the number of snake segments is `min(3, boardWidth)` plus
the score; the snake is not empty, so that `moveSnake` does not fault on
`snake.front()` whatever key was processed before; and the score is not
negative. -/
theorem score_length_invariant (rnd : Nat → Nat) (s : Game) (hreach : Reachable rnd s) :
    (s.snake.length : Int) = min 3 s.boardWidth + s.score ∧ s.snake ≠ [] ∧ 0 ≤ s.score ∧
    ∀ (keyboard : Option (List Char)) (fuel : Nat),
      moveSnake rnd fuel (processInput keyboard s) ≠ Except.error Fault.emptySnake := by
  obtain ⟨hw, hlen, hsc⟩ := reachable_length rnd s hreach
  have hne : s.snake ≠ [] := by
    intro hnil
    rw [hnil] at hlen
    simp only [List.length_nil, Nat.cast_zero] at hlen
    omega
  refine ⟨hlen, hne, hsc, ?_⟩
  intro keyboard fuel
  apply moveSnake_ne_emptySnake
  rw [(processInput_frame keyboard s).1]
  exact hne

/-- Witness for C20: the session whose first food lies right in front of the
snake; after the first tick the snake has 4 = min(3, 40) + 1 segments. -/
theorem score_length_invariant_witness :
    Reachable foodAheadRnd aheadAfterEat ∧ aheadAfterEat.score = 1 ∧
    (aheadAfterEat.snake.length : Int) = min 3 aheadAfterEat.boardWidth + aheadAfterEat.score ∧
    aheadAfterEat.snake ≠ [] := by
  have hreach : Reachable foodAheadRnd aheadAfterEat :=
    Reachable.iterate (some ['d']) 1 aheadStart aheadAfterEat
      (Reachable.start (some (80, 40)) 1 newGame aheadStart rfl) rfl rfl
  obtain ⟨hlen, hne, _, _⟩ := score_length_invariant foodAheadRnd aheadAfterEat hreach
  exact ⟨hreach, rfl, hlen, hne⟩

/-! ## Opening move -/

/-- On the snake `reset()` lays out, the cell left of the head is outside the
board when the board has width 1, and is inside the board and the second
segment when the width is at least 2. -/
theorem layout_left (w h : Int) (hw : 1 ≤ w) (hh : 1 ≤ h) (s : Game)
    (hsn : s.snake = layout w h) (hbw : s.boardWidth = w) (hbh : s.boardHeight = h) :
    s.snake.head? = some { x := w / 2, y := h / 2 } ∧
    (w = 1 → hitsWall s (shift { x := w / 2, y := h / 2 } Direction.LEFT)) ∧
    (2 ≤ w → ¬ hitsWall s (shift { x := w / 2, y := h / 2 } Direction.LEFT) ∧
      s.snake[1]? = some (shift { x := w / 2, y := h / 2 } Direction.LEFT)) := by
  refine ⟨?_, ?_, ?_⟩
  · rw [hsn]; rfl
  · intro h1
    subst h1
    left
    show (1 : Int) / 2 + -1 < 0
    decide
  · intro h2
    have hx : 1 ≤ w / 2 := by omega
    have hy0 : 0 ≤ h / 2 := by omega
    have hy1 : h / 2 < h := by omega
    refine ⟨?_, ?_⟩
    · unfold hitsWall shift delta
      rw [hbw, hbh]
      simp only
      omega
    · rw [hsn]
      unfold layout shift delta
      rw [if_pos (by omega)]
      simp only [List.cons_append, List.nil_append, List.getElem?_cons_succ,
        List.getElem?_cons_zero, Option.some.injEq, Point.mk.injEq]
      exact ⟨by omega, by omega⟩

/-- C21: the opening move to the left loses.  For every outcome of the
terminal-size query (every board), from the state `reset()` returns, when the
key the first iteration polls asks for the turn `LEFT` (the keys `a`, `A` and
the sequence ESC `[` `D` do), the iteration runs `moveSnake`, which returns
with `gameOver` true and with snake, food and score unchanged: the cell left
of the head is outside the board when `boardWidth = 1`, and is inside the board
and the second segment of the snake when `boardWidth >= 2`. -/
theorem opening_left_loses (query : Option (Int × Int)) (rnd : Nat → Nat) (fuel fuel' : Nat)
    (s0 s : Game) (keyboard : Option (List Char)) (key : Char)
    (hreset : reset query rnd fuel s0 = Except.ok s)
    (hkey : polledKey keyboard = some key) (hturn : turnIntent key = some Direction.LEFT) :
    (turnIntent 'a' = some Direction.LEFT ∧ turnIntent 'A' = some Direction.LEFT ∧
      polledKey (some [ESC, '[', 'D']) = some 'a') ∧
    s.snake.head? = some { x := s.boardWidth / 2, y := s.boardHeight / 2 } ∧
    (∃ s', loopIteration keyboard rnd fuel' s = Except.ok s' ∧
      moveSnake rnd fuel' (processInput keyboard s) = Except.ok s' ∧
      s'.gameOver = true ∧ s'.snake = s.snake ∧ s'.food = s.food ∧ s'.score = s.score) ∧
    (s.boardWidth = 1 →
      hitsWall s (shift { x := s.boardWidth / 2, y := s.boardHeight / 2 } Direction.LEFT)) ∧
    (2 ≤ s.boardWidth →
      ¬ hitsWall s (shift { x := s.boardWidth / 2, y := s.boardHeight / 2 } Direction.LEFT) ∧
      s.snake[1]? =
        some (shift { x := s.boardWidth / 2, y := s.boardHeight / 2 } Direction.LEFT)) := by
  obtain ⟨hsn, hbw, hbh, hdir, _, _, _, hpaused⟩ := reset_ok query rnd fuel s0 s hreset
  obtain ⟨hw1, _, hh1, _⟩ := updateBoardDimensions_bounds query s0
  rw [← hbw] at hw1
  rw [← hbh] at hh1
  rw [← hbw, ← hbh, initialSnake_layout _ _ hw1 hh1] at hsn
  obtain ⟨hhead, hwall, hsecond⟩ := layout_left s.boardWidth s.boardHeight hw1 hh1 s hsn rfl rfl
  have hs1 : processInput keyboard s =
      { s with nextDirection := Direction.LEFT, direction := Direction.LEFT } := by
    rw [processInput_polledKey, hkey]
    simp only
    rw [applyKey_turn key Direction.LEFT s hturn, hdir, if_neg (by decide), if_pos rfl]
  have hcol : hitsWall s (shift { x := s.boardWidth / 2, y := s.boardHeight / 2 }
        Direction.LEFT) ∨
      shift { x := s.boardWidth / 2, y := s.boardHeight / 2 } Direction.LEFT ∈ s.snake := by
    by_cases h1 : s.boardWidth = 1
    · exact Or.inl (hwall h1)
    · right
      exact List.getElem?_mem (hsecond (by omega)).2
  obtain ⟨tail, htail⟩ : ∃ tail,
      s.snake = { x := s.boardWidth / 2, y := s.boardHeight / 2 } :: tail := by
    cases hl : s.snake with
    | nil => rw [hl] at hhead; cases hhead
    | cons a tail =>
      rw [hl] at hhead
      injection hhead with hhead
      exact ⟨tail, by rw [hhead]⟩
  have hmove := (moveSnake_along rnd fuel'
    { s with nextDirection := Direction.LEFT, direction := Direction.LEFT }
    Direction.LEFT _ tail htail (by decide) (commitDirection_same Direction.LEFT)).2.2.1 hcol
  refine ⟨⟨rfl, rfl, rfl⟩, hhead, ?_, hwall, hsecond⟩
  refine ⟨{ s with
      nextDirection := Direction.LEFT, direction := Direction.LEFT, gameOver := true },
    ?_, ?_, rfl, rfl, rfl, rfl⟩
  · unfold loopIteration
    simp only
    rw [hs1]
    have hp : ¬ ({ s with nextDirection := Direction.LEFT, direction := Direction.LEFT } :
        Game).paused = true := by
      show ¬ s.paused = true
      rw [hpaused]
      decide
    rw [if_neg hp]
    exact hmove
  · rw [hs1]
    exact hmove

/-- Witness for C21: on the 40x20 board the left arrow makes the head (20,10)
run into the second segment (19,10); on the 1x20 board the key `a` makes the
head (0,10) run into the wall. -/
theorem opening_left_loses_witness :
    (∃ s', loopIteration (some [ESC, '[', 'D']) countingRnd 0 sessionStart = Except.ok s' ∧
      s'.gameOver = true ∧ s'.snake = sessionStart.snake) ∧
    sessionStart.snake[1]? = some { x := 19, y := 10 } ∧
    (∃ s', loopIteration (some ['a']) countingRnd 0 columnStart = Except.ok s' ∧
      s'.gameOver = true ∧ s'.snake = columnStart.snake) ∧
    hitsWall columnStart { x := -1, y := 10 } := by
  obtain ⟨-, -, ⟨s1, hrun1, -, hgo1, hsn1, -, -⟩, -, -⟩ :=
    opening_left_loses (some (80, 40)) countingRnd 1 0 newGame sessionStart
      (some [ESC, '[', 'D']) 'a' rfl rfl rfl
  obtain ⟨-, -, ⟨s2, hrun2, -, hgo2, hsn2, -, -⟩, hwall, -⟩ :=
    opening_left_loses (some (5, 40)) countingRnd 1 0 newGame columnStart
      (some ['a']) 'a' rfl rfl rfl
  exact ⟨⟨s1, hrun1, hgo1, hsn1⟩, rfl, ⟨s2, hrun2, hgo2, hsn2⟩, hwall rfl⟩

end Snake
